import Mathlib

/-
Verification of the completion engine of the Slint LSP
(src/tools/lsp/language/completion.rs) against its specification.

The Rust code is shallowly embedded: the syntax tree, the type registry,
the lookup contexts and the filesystem are external collaborators of the
completion engine (they live in other crates of the repository), so they
are modelled as explicit data structures and environment functions,
following the interface contract described in the specification.  The
functions of completion.rs itself (completion_at, resolve_element_scope,
resolve_expression_scope, resolve_type_scope, complete_path_in_string,
add_components_to_import, is_followed_by_brace, with_insert_text and
completion_item_from_expression) are translated line by line.
-/

set_option autoImplicit false

namespace SlintCompletion

/-- LSP position: zero-based line and character. -/
structure Position where
  line : Nat
  character : Nat
deriving DecidableEq, Repr

/-- LSP text edit: a replacement range with the new text.  The range is
given by its two positions, mirroring lsp_types::Range. -/
structure TextEdit where
  range_start : Position
  range_end : Position
  new_text : String
deriving DecidableEq, Repr

/-- The completion item kinds used by completion.rs (a subset of the LSP
CompletionItemKind enumeration). -/
inductive CompletionItemKind where
  | PROPERTY
  | METHOD
  | CLASS
  | KEYWORD
  | CONSTANT
  | FUNCTION
  | VARIABLE
  | ENUM_MEMBER
  | ENUM
  | MODULE
  | FILE
  | FOLDER
  | TYPE_PARAMETER
deriving DecidableEq, Repr

/-- LSP insert text format. -/
inductive InsertTextFormat where
  | plainText
  | snippet
deriving DecidableEq, Repr

/-- The candidate record produced by the engine, with the fields of
lsp_types::CompletionItem that completion.rs touches.  All optional
fields default to none, like ..Default::default() in the source. -/
structure CompletionItem where
  label : String
  detail : Option String := none
  kind : Option CompletionItemKind := none
  insert_text : Option String := none
  insert_text_format : Option InsertTextFormat := none
  filter_text : Option String := none
  additional_text_edits : Option (List TextEdit) := none
deriving DecidableEq, Repr

/-- CompletionItem::new_simple label detail: only label and detail set. -/
def CompletionItem.new_simple (label detail : String) : CompletionItem :=
  { label := label, detail := some detail }

/-- Client capability record: completion_item.snippet_support. -/
structure CompletionItemCapability where
  snippet_support : Option Bool
deriving DecidableEq, Repr

/-- Client capabilities, as consumed by completion_at. -/
structure CompletionClientCapabilities where
  completion_item : Option CompletionItemCapability
deriving DecidableEq, Repr

/-- The syntax kinds of the parser that completion.rs inspects. -/
inductive SyntaxKind where
  | StringLiteral
  | ImportSpecifier
  | AtImageUrl
  | Element
  | At
  | Identifier
  | Binding
  | TwoWayBinding
  | CallbackConnection
  | Colon
  | Type_
  | ArrayType
  | ObjectType
  | ReturnType
  | PropertyDeclaration
  | LAngle
  | CallbackDeclaration
  | LParent
  | BindingExpression
  | CodeBlock
  | ReturnStatement
  | Expression
  | FunctionCallExpression
  | SelfAssignment
  | ConditionalExpression
  | BinaryExpression
  | UnaryOpExpression
  | Array
  | AtGradient
  | StringTemplate
  | IndexExpression
  | QualifiedName
  | ImportIdentifierList
  | Document
  | State
  | States
  | PropertyAnimation
  | Dot
  | Whitespace
  | Comment
  | LBrace
  | Other
deriving DecidableEq, Repr

/-- Modelled from the spec: a source file handle with its path and the
offset-to-position map used by map_position. -/
structure SourceFileView where
  path : String
  mapPosition : Nat → Position

/-- A syntax token as seen by the engine: kind tag, text, absolute start
offset, and an identity used for the token equality comparisons of the
source (t.token == token.token). -/
structure Token where
  kind : SyntaxKind
  text : String
  startOffset : Nat
  id : Nat
  sourceFile : SourceFileView

/-- Modelled from the spec: the compiler property type (langtype::Type),
carrying its rendered text and the variant distinctions that
completion.rs matches on (Callback, InferredCallback, Function, and
whether the type is valid in a property position). -/
inductive Ty where
  | callback (text : String)
  | inferredCallback (text : String)
  | function (text : String)
  | other (text : String) (is_property : Bool)
deriving DecidableEq, Repr

/-- Rendered text of a type (Type::to_string). -/
def Ty.toText : Ty → String
  | .callback s => s
  | .inferredCallback s => s
  | .function s => s
  | .other s _ => s

/-- matches (t, Type::InferredCallback | Type::Callback ..). -/
def Ty.isCallbackLike : Ty → Bool
  | .callback _ => true
  | .inferredCallback _ => true
  | _ => false

/-- matches (t, Type::Function ..). -/
def Ty.isFunctionLike : Ty → Bool
  | .function _ => true
  | _ => false

/-- Type::is_property_type. -/
def Ty.is_property_type : Ty → Bool
  | .other _ b => b
  | _ => false

/-- Modelled from the spec: langtype::ElementType with the data
completion.rs consumes: the variant (Component, Builtin, Global, default
Error), the component and builtin flags, and property_list. -/
inductive ElementType where
  | component (is_global : Bool) (props : List (String × Ty))
  | builtin (is_internal : Bool) (is_global : Bool) (props : List (String × Ty))
  | globalElem
  | error
deriving DecidableEq, Repr

/-- ElementType::property_list: the declared properties and callbacks of
the resolved type (unique names, per the registry invariant); empty for
the Global and Error variants. -/
def ElementType.property_list : ElementType → List (String × Ty)
  | .component _ p => p
  | .builtin _ _ p => p
  | .globalElem => []
  | .error => []

/-- matches (element_type, ElementType::Global). -/
def ElementType.isGlobalVariant : ElementType → Bool
  | .globalElem => true
  | _ => false

/-- The filter of the class-candidate loops of completion.rs: a
non-global Component, or a non-internal non-global Builtin. -/
def element_class_candidate : ElementType → Bool
  | .component g _ => !g
  | .builtin i g _ => !i && !g
  | .globalElem => false
  | .error => false

/-- Modelled from the spec: a type registry, queryable per document with
a global fallback; all_elements and all_types enumerate it, and the
animation registry entry backs property_animation_type_for_property. -/
structure TypeRegistry where
  all_elements : List (String × ElementType)
  all_types : List (String × Ty)
  property_animation_properties : List (String × Ty)

/-- Modelled from the spec: the Expression variants that
completion_item_from_expression distinguishes. -/
inductive ExprKind where
  | boolLiteral
  | callbackReference
  | functionReference
  | propertyReference
  | builtinFunctionReference
  | builtinMacroReference
  | elementReference
  | repeaterIndexReference
  | repeaterModelReference
  | functionParameterReference
  | castExpr
  | easingCurve
  | enumerationValue
  | otherExpr
deriving DecidableEq, Repr

/-- Modelled from the spec: a LookupResult, which is also a LookupObject
capability: lookup resolves a name to a sub-result and for_each_entry
enumerates the sub-entries.  The expression variant carries the
expression kind and the rendered type text used for the item detail. -/
inductive LookupResult where
  | expr (k : ExprKind) (tyText : String) (sub : List (String × LookupResult))
  | enumeration (name : String) (sub : List (String × LookupResult))
  | namespaceRes (sub : List (String × LookupResult))

/-- The entries reachable from a lookup object. -/
def LookupResult.subEntries : LookupResult → List (String × LookupResult)
  | .expr _ _ s => s
  | .enumeration _ s => s
  | .namespaceRes s => s

/-- LookupObject::lookup on a resolved object: finds the entry with the
given (already normalized) name. -/
def lookupIn (e : LookupResult) (n : String) : Option LookupResult :=
  (e.subEntries.find? fun p => decide (p.1 = n)).map (fun p => p.2)

/-- The entry list of the global lookup object under one lookup context
(i_slint_compiler::lookup::global_lookup() together with the LookupCtx
built by with_lookup_ctx; the context only feeds lookups, so it is
folded into the entry list). -/
abbrev ScopeEntries := List (String × LookupResult)

/-- LookupObject::lookup on the global object. -/
def scopeLookup (scope : ScopeEntries) (n : String) : Option LookupResult :=
  (scope.find? fun p => decide (p.1 = n)).map (fun p => p.2)

/-- Modelled from the spec: parser::normalize_identifier folds the
hyphen/underscore separator convention. -/
def normalize_identifier (s : String) : String :=
  (s.toList.map fun c => if c = '_' then '-' else c).asString

/-- An export table entry: either a component (with its is_global flag)
or some other exported type (ty.as_ref().left() is then None). -/
inductive ExportTy where
  | component (is_global : Bool)
  | otherTy
deriving DecidableEq, Repr

/-- One ImportIdentifier of an import identifier list: its end offset
(text_range().end()). -/
structure ImportIdentifier where
  endOffset : Nat
deriving DecidableEq, Repr

/-- One ImportSpecifier child of the document node, with the accessors
add_components_to_import uses: the optional identifier list, the
optional string-literal child token text (with quotes) and the end
offset of the whole import statement. -/
structure ImportSpecView where
  importIdentifierList : Option (List ImportIdentifier)
  stringLiteral : Option String
  endOffset : Nat
deriving DecidableEq, Repr

/-- One child (node or token) of the document node, as enumerated by
children_with_tokens in add_components_to_import: its kind, its start
offset and its text (only inspected for whitespace tokens). -/
structure DocChild where
  kind : SyntaxKind
  start : Nat
  text : String
deriving DecidableEq, Repr

/-- The parsed document node (doc.node), with the two traversals that
add_components_to_import performs on it. -/
structure DocNodeView where
  importSpecifiers : List ImportSpecView
  childrenWithTokens : List DocChild

/-- A document of the document store: local registry, export table and
optional parsed node. -/
structure DocumentView where
  local_registry : TypeRegistry
  exports : List (String × ExportTy)
  node : Option DocNodeView

/-- A raw read_dir entry: Err entries are none; file_name and file_type
can each fail (into_string().ok() and file_type().ok()). -/
structure DirEntry where
  file_name : Option String
  is_dir : Option Bool
deriving DecidableEq, Repr

/-- The external world of one completion request: document store,
global registry, reserved properties, filesystem and URL operations.
All of these are collaborators outside completion.rs, modelled from the
spec at their interface. -/
structure Env where
  global_type_registry : TypeRegistry
  getDocument : String → Option DocumentView
  all_files : List String
  read_dir : String → Option (List (Option DirEntry))
  base_directory : String → String
  reserved_properties : List (String × Ty)
  urlOfFile : String → Option String
  makeRelative : String → String → Option String
  resolveImportPath : String → Option String

/-- The registry for a source file: the local registry of its document,
falling back to the global registry (the unwrap_or(&global_tr) pattern
of completion.rs). -/
def registryFor (env : Env) (path : String) : TypeRegistry :=
  match env.getDocument path with
  | some doc => doc.local_registry
  | none => env.global_type_registry

/-- The view of an Element syntax node: its source path, its in-source
property and callback declarations, and the element type resolved by
lookup_current_element_type (none when unresolvable). -/
structure PropertyDeclarationNode where
  declaredIdentifierText : Option String
  typeText : Option String
deriving DecidableEq, Repr

/-- A CallbackDeclaration child of an element. -/
structure CallbackDeclarationNode where
  declaredIdentifierText : Option String
deriving DecidableEq, Repr

/-- The data of an Element node consumed by resolve_element_scope. -/
structure ElementView where
  sourcePath : String
  propertyDeclarations : List PropertyDeclarationNode
  callbackDeclarations : List CallbackDeclarationNode
  elementType : Option ElementType
deriving DecidableEq, Repr

/-- The enclosing node of the cursor token, classified by its kind with
the per-kind payloads that the corresponding branch of completion_at
reads.  Constructors correspond one to one to the node kinds the
if-else chain of completion_at dispatches on; kinds it never matches
are collected in the constructor named other (notably States, the
state-list node, which no branch handles).  typePosition stands for the
four kinds Type, ArrayType, ObjectType and ReturnType, and
expressionPosition for the thirteen expression-bearing kinds of the
source, whose branches do not distinguish the kind further.  The
separator fields of twoWayBinding and callbackConnection are present in
the tree but ignored by the code. -/
inductive NodeView where
  | importSpecifierParent
  | atImageUrlParent
  | element (e : ElementView) (parentChildIdentifierText : Option String)
  | binding (colonEnd : Option Nat) (parentElement : Option ElementView)
      (exprScope : Option ScopeEntries)
  | twoWayBinding (sepEnd : Option Nat) (parentElement : Option ElementView)
      (exprScope : Option ScopeEntries)
  | callbackConnection (sepEnd : Option Nat) (parentElement : Option ElementView)
      (exprScope : Option ScopeEntries)
  | typePosition
  | propertyDeclaration
  | callbackDeclaration (lparenEnd : Option Nat)
  | expressionPosition (exprScope : Option ScopeEntries)
  | qualifiedName (parentKind : Option SyntaxKind) (tokens : List Token)
      (exprScope : Option ScopeEntries)
  | importIdentifierList (importStringLiteral : Option String)
  | document
  | state
  | propertyAnimation
  | other (k : SyntaxKind)

/-- The cursor of one completion request: the token under the cursor,
the kind of the previous token (prev_token), the stream of following
tokens (next_token chain) and the classified parent node. -/
structure CursorView where
  token : Token
  prevTokenKind : Option SyntaxKind
  nextTokens : List Token
  node : NodeView

/-- u32::checked_sub. -/
def checkedSub (a b : Nat) : Option Nat :=
  if a < b then none else some (a - b)

/-- str::contains of a character. -/
def strContains (s : String) (c : Char) : Bool :=
  s.toList.any fun a => decide (a = c)

/-- str::starts_with of a string prefix. -/
def strStartsWith (p s : String) : Bool :=
  p.toList.isPrefixOf s.toList

/-- str::strip_prefix of the opening quote. -/
def stripLeadingQuote (s : String) : Option String :=
  match s.toList with
  | c :: rest => if c = '"' then some rest.asString else none
  | [] => none

/-- str::rfind of a slash, as a character index. -/
def rfindSlash (s : String) : Option Nat :=
  (List.range s.length).reverse.find? fun i => decide (s.toList.get? i = some '/')

/-- Path::join, for the relative prefixes produced by path completion. -/
def pathJoin (a b : String) : String :=
  a ++ "/" ++ b

/-- str::trim_matches of double quotes. -/
def trimQuotes (s : String) : String :=
  (((s.toList.dropWhile fun c => decide (c = '"')).reverse.dropWhile
    fun c => decide (c = '"')).reverse).asString

/-- Path::file_name: the component after the last slash, none if empty. -/
def fileName (p : String) : Option String :=
  let comp := (p.toList.reverse.takeWhile fun c => decide (c ≠ '/')).reverse
  if comp.isEmpty then none else some comp.asString

/-- The snippet_support extraction at the top of completion_at. -/
def snippet_support_of (caps : Option CompletionClientCapabilities) : Bool :=
  (((caps.bind fun c => c.completion_item).bind fun ci => ci.snippet_support)).getD false

/-- with_insert_text: set a snippet insert text when supported. -/
def with_insert_text (c : CompletionItem) (ins_text : String)
    (snippet_support : Bool) : CompletionItem :=
  if snippet_support then
    { c with insert_text_format := some InsertTextFormat.snippet,
             insert_text := some ins_text }
  else c

/-- completion_item_from_expression: map a lookup result to an item. -/
def completion_item_from_expression (str : String) (lookup_result : LookupResult) :
    CompletionItem :=
  match lookup_result with
  | .expr k tyText _ =>
    { CompletionItem.new_simple str tyText with
      kind :=
        match k with
        | .boolLiteral => some CompletionItemKind.CONSTANT
        | .callbackReference => some CompletionItemKind.METHOD
        | .functionReference => some CompletionItemKind.FUNCTION
        | .propertyReference => some CompletionItemKind.PROPERTY
        | .builtinFunctionReference => some CompletionItemKind.FUNCTION
        | .builtinMacroReference => some CompletionItemKind.FUNCTION
        | .elementReference => some CompletionItemKind.CLASS
        | .repeaterIndexReference => some CompletionItemKind.VARIABLE
        | .repeaterModelReference => some CompletionItemKind.VARIABLE
        | .functionParameterReference => some CompletionItemKind.VARIABLE
        | .castExpr => some CompletionItemKind.CONSTANT
        | .easingCurve => some CompletionItemKind.CONSTANT
        | .enumerationValue => some CompletionItemKind.ENUM_MEMBER
        | .otherExpr => none }
  | .enumeration name _ =>
    { CompletionItem.new_simple str name with kind := some CompletionItemKind.ENUM }
  | .namespaceRes _ =>
    { label := str, kind := some CompletionItemKind.MODULE }

/-- resolve_expression_scope: enumerate every entry of the global lookup
object except the SlintInternal namespace. -/
def resolve_expression_scope (scope : ScopeEntries) : Option (List CompletionItem) :=
  some ((scope.filter fun p => decide (p.1 ≠ "SlintInternal")).map
    fun p => completion_item_from_expression p.1 p.2)

/-- The for_each_entry enumeration of a resolved object used by the
qualified-chain branch (no internal-namespace filter there). -/
def for_each_entry_items (e : LookupResult) : List CompletionItem :=
  e.subEntries.map fun p => completion_item_from_expression p.1 p.2

/-- The item of one declared property or callback of the resolved
element type (the first map of resolve_element_scope). -/
def element_type_item (kt : String × Ty) : CompletionItem :=
  { CompletionItem.new_simple kt.1 kt.2.toText with
    kind := some (if kt.2.isCallbackLike then CompletionItemKind.METHOD
                  else CompletionItemKind.PROPERTY) }

/-- The items of the resolved element type property list. -/
def element_type_items (et : ElementType) : List CompletionItem :=
  et.property_list.map element_type_item

/-- The items of the in-source property declarations of the element. -/
def declared_property_items (element : ElementView) : List CompletionItem :=
  element.propertyDeclarations.map fun pr =>
    { CompletionItem.new_simple (pr.declaredIdentifierText.getD "")
        (pr.typeText.getD "property") with
      kind := some CompletionItemKind.PROPERTY }

/-- The items of the in-source callback declarations of the element. -/
def declared_callback_items (element : ElementView) : List CompletionItem :=
  element.callbackDeclarations.map fun cd =>
    { CompletionItem.new_simple (cd.declaredIdentifierText.getD "") "callback" with
      kind := some CompletionItemKind.METHOD }

/-- The items of the reserved properties (excluding plain functions). -/
def reserved_property_items (env : Env) : List CompletionItem :=
  env.reserved_properties.filterMap fun kt =>
    if kt.2.isFunctionLike then none
    else some { CompletionItem.new_simple kt.1 kt.2.toText with
      kind := some (if kt.2.isCallbackLike then CompletionItemKind.METHOD
                    else CompletionItemKind.PROPERTY) }

/-- The class candidates of a registry: every visible non-global
component and non-internal non-global builtin. -/
def class_candidate_items (tr : TypeRegistry) : List CompletionItem :=
  tr.all_elements.filterMap fun kt =>
    if element_class_candidate kt.2 then
      some { CompletionItem.new_simple kt.1 "element" with
        kind := some CompletionItemKind.CLASS }
    else none

/-- resolve_element_scope: the element-scope candidate set: the resolved
element type property list, the in-source property and callback
declarations, and (except for globals) the reserved properties and the
class candidates of the registry. -/
def resolve_element_scope (env : Env) (element : ElementView) :
    Option (List CompletionItem) :=
  let tr := registryFor env element.sourcePath
  let element_type := element.elementType.getD ElementType.error
  let result :=
    element_type_items element_type
    ++ declared_property_items element
    ++ declared_callback_items element
  let result :=
    if !element_type.isGlobalVariant then
      result ++ reserved_property_items env ++ class_candidate_items tr
    else result
  some result

/-- resolve_type_scope: all registry types valid in a property position. -/
def resolve_type_scope (env : Env) (token : Token) : Option (List CompletionItem) :=
  let tr := registryFor env token.sourceFile.path
  some (tr.all_types.filterMap fun kt =>
    if kt.2.is_property_type then
      some { CompletionItem.new_simple kt.1 "" with
        kind := some CompletionItemKind.TYPE_PARAMETER }
    else none)

/-- One read_dir entry mapped to a candidate (the filter_map closure of
complete_path_in_string). -/
def dir_entry_item (x : Option DirEntry) : Option CompletionItem := do
  let entry ← x
  let name ← entry.file_name
  let isDir ← entry.is_dir
  if isDir then
    some { CompletionItem.new_simple name "" with
      kind := some CompletionItemKind.FOLDER,
      insert_text := some (name ++ "/") }
  else
    some { CompletionItem.new_simple name "" with kind := some CompletionItemKind.FILE }

/-- The directory resolved from the typed path prefix: the text before
the last slash joined onto the base directory, or the base directory
itself when there is no slash. -/
def resolved_dir (env : Env) (base : String) (text2 : String) : String :=
  match rfindSlash text2 with
  | some lastSlash => pathJoin (env.base_directory base) (text2.take lastSlash)
  | none => env.base_directory base

/-- complete_path_in_string: list the directory entries for the path
prefix typed before the cursor inside a string literal. -/
def complete_path_in_string (env : Env) (base : String) (text : String)
    (offset : Nat) : Option (List CompletionItem) :=
  if offset > text.length ∨ offset = 0 then none
  else do
    let text1 ← stripLeadingQuote text
    let text2 := text1.take (offset - 1)
    let path := resolved_dir env base text2
    let dir ← env.read_dir path
    some (dir.filterMap dir_entry_item)

/-- The directory that complete_path_in_string would read, exposed for
the error-handling claim (none when one of the guards fails first). -/
def resolved_path (env : Env) (base : String) (text : String) (offset : Nat) :
    Option String :=
  if offset > text.length ∨ offset = 0 then none
  else (stripLeadingQuote text).map fun text1 =>
    resolved_dir env base (text1.take (offset - 1))

/-- is_followed_by_brace: the next non-whitespace token is an LBrace. -/
def is_followed_by_brace (nextTokens : List Token) : Bool :=
  match nextTokens.dropWhile (fun t => decide (t.kind = SyntaxKind.Whitespace)) with
  | [] => false
  | t :: _ => decide (t.kind = SyntaxKind.LBrace)

/-- The snippet transformation applied to each element-scope candidate
when the client supports snippets (the iter_mut loop of the element
branch of completion_at). -/
def snippet_transform (nextTokens : List Token) (c : CompletionItem) : CompletionItem :=
  let c := { c with insert_text_format := some InsertTextFormat.snippet }
  match c.kind with
  | some CompletionItemKind.PROPERTY =>
    { c with insert_text := some (c.label ++ ": $1;") }
  | some CompletionItemKind.METHOD =>
    { c with insert_text := some (c.label ++ " => \x7b$1\x7d") }
  | some CompletionItemKind.CLASS =>
    if !is_followed_by_brace nextTokens then
      { c with insert_text := some (c.label ++ " \x7b$1\x7d") }
    else c
  | _ => c

/-- A keyword candidate with its fixed snippet body. -/
def keyword_item (snippet_support : Bool) (kw ins_tex : String) : CompletionItem :=
  with_insert_text
    { CompletionItem.new_simple kw "" with kind := some CompletionItemKind.KEYWORD }
    ins_tex snippet_support

/-- The keyword list appended in every element body. -/
def element_keyword_list : List (String × String) :=
  [("property", "property <$\x7b1:int\x7d> $\x7b2:name\x7d;"),
   ("in property", "in property <$\x7b1:int\x7d> $\x7b2:name\x7d;"),
   ("in-out property", "in-out property <$\x7b1:int\x7d> $\x7b2:name\x7d;"),
   ("out property", "out property <$\x7b1:int\x7d> $\x7b2:name\x7d;"),
   ("private property", "private property <$\x7b1:int\x7d> $\x7b2:name\x7d;"),
   ("function", "function $\x7b1:name\x7d($2) \x7b\n    $0\n\x7d"),
   ("public function", "public function $\x7b1:name\x7d($2) \x7b\n    $0\n\x7d"),
   ("callback", "callback $\x7b1:name\x7d($2);")]

/-- The keyword list appended in non-global element bodies. -/
def non_global_keyword_list : List (String × String) :=
  [("animate", "animate $\x7b1:prop\x7d \x7b\n     $0\n\x7d"),
   ("states", "states [\n    $0\n]"),
   ("for", "for $1 in $2: $\x7b3:Rectangle\x7d \x7b\n    $0\n\x7d"),
   ("if", "if $1: $\x7b2:Rectangle\x7d \x7b\n    $0\n\x7d"),
   ("@children", "@children")]

/-- The keyword list of the document root. -/
def document_keyword_list : List (String × String) :=
  [("import", "import \x7b $\x7b2:Component\x7d \x7d from \"$\x7b1:std-widgets.slint\x7d\";"),
   ("component", "component $\x7b1:Component\x7d \x7b\n    $0\n\x7d"),
   ("struct", "struct $\x7b1:Name\x7d \x7b\n    $0\n\x7d"),
   ("global", "global $\x7b1:Name\x7d \x7b\n    $0\n\x7d"),
   ("export", "export \x7b $0 \x7d"),
   ("export component", "export component $\x7b1:ExportedComponent\x7d \x7b\n    $0\n\x7d"),
   ("export struct", "export struct $\x7b1:Name\x7d \x7b\n    $0\n\x7d"),
   ("export global", "export global $\x7b1:Name\x7d \x7b\n    $0\n\x7d")]

/-- HashMap::insert on the import-location map (latest insert wins). -/
def hmInsert (m : List (String × Position)) (k : String) (v : Position) :
    List (String × Position) :=
  (k, v) :: m

/-- HashMap::get on the import-location map. -/
def hmGet (m : List (String × Position)) (k : String) : Option Position :=
  (m.find? fun p => decide (p.1 = k)).map fun p => p.2

/-- The import_locations map built by the first loop of
add_components_to_import: source file of each import, mapped to the
position just after the last identifier of its identifier list. -/
def importLocations (sf : SourceFileView) (imports : List ImportSpecView) :
    List (String × Position) :=
  imports.foldl
    (fun locs imp =>
      match imp.importIdentifierList with
      | some list =>
        match list.getLast? with
        | some lastId =>
          match imp.stringLiteral with
          | some lit =>
            hmInsert locs (trimQuotes lit) (sf.mapPosition lastId.endOffset)
          | none => locs
        | none => locs
      | none => locs)
    []

/-- The variable named last in add_components_to_import: the end offset
of the last import statement, zero when there is none. -/
def lastImportEnd (imports : List ImportSpecView) : Nat :=
  imports.foldl (fun _ imp => imp.endOffset) 0

/-- The scan over the document children that finds the insertion offset
for a new import statement when the file has no import yet (direct
translation of the loop in add_components_to_import: a comment sets the
offset if unset, a whitespace other than one single newline clears it,
and the first other child sets it if unset and stops the scan). -/
def importScanOffset : List DocChild → Option Nat → Option Nat
  | [], offset => offset
  | it :: rest, offset =>
    if it.kind = SyntaxKind.Comment then
      importScanOffset rest (if offset.isNone then some it.start else offset)
    else if it.kind = SyntaxKind.Whitespace then
      importScanOffset rest (if it.text ≠ "\n" then none else offset)
    else if offset.isNone then some it.start else offset

/-- The position where a new import statement is inserted: one line past
the last import if any exists, else the offset found by the document
scan. -/
def new_import_position (sf : SourceFileView) (doc : DocNodeView) : Position :=
  let last := lastImportEnd doc.importSpecifiers
  if last = 0 then
    sf.mapPosition ((importScanOffset doc.childrenWithTokens none).getD 0)
  else
    { line := (sf.mapPosition last).line + 1, character := 0 }

/-- The candidate pushed for one importable exported component, with
its import-adding text edit. -/
def import_candidate (followed_by_brace : Bool) (locs : List (String × Position))
    (nip : Position) (file : String) (name : String) : CompletionItem :=
  let the_import :=
    match hmGet locs file with
    | some pos => { range_start := pos, range_end := pos, new_text := ", " ++ name }
    | none =>
      { range_start := nip, range_end := nip,
        new_text := "import \x7b " ++ name ++ " \x7d from \"" ++ file ++ "\";\n" }
  { label := name ++ " (import from \"" ++ file ++ "\")",
    insert_text := some (if followed_by_brace then name else name ++ " \x7b$1\x7d"),
    insert_text_format := some InsertTextFormat.snippet,
    filter_text := some name,
    kind := some CompletionItemKind.CLASS,
    detail := some ("(import from \"" ++ file ++ "\")"),
    additional_text_edits := some [the_import] }

/-- One step of the export loop of add_components_to_import: skip names
already available, skip globals and non-components, otherwise record the
name and push the candidate. -/
def export_step (followed_by_brace : Bool) (locs : List (String × Position))
    (nip : Position) (file : String)
    (acc : List String × List CompletionItem) (ex : String × ExportTy) :
    List String × List CompletionItem :=
  if ex.1 ∈ acc.1 then acc
  else
    match ex.2 with
    | ExportTy.component is_global =>
      if is_global then acc
      else (ex.1 :: acc.1, acc.2 ++ [import_candidate followed_by_brace locs nip file ex.1])
    | ExportTy.otherTy => acc

/-- One step of the file loop of add_components_to_import: resolve
the import source name of the file (the fixed name for the builtin standard
widgets, a URL-relative path otherwise) and fold its exports.  The
source panics when a known file path cannot become a URL; that case is
modelled as skipping the file. -/
def file_step (env : Env) (current_uri : String) (followed_by_brace : Bool)
    (locs : List (String × Position)) (nip : Position)
    (acc : List String × List CompletionItem) (file : String) :
    List String × List CompletionItem :=
  match env.getDocument file with
  | none => acc
  | some doc =>
    let fileRef : Option String :=
      if strStartsWith "builtin:/" file then
        match fileName file with
        | some f => if f = "std-widgets.slint" then some "std-widgets.slint" else none
        | none => none
      else
        match env.urlOfFile file with
        | some u => env.makeRelative current_uri u
        | none => none
    match fileRef with
    | none => acc
    | some f => doc.exports.foldl (export_step followed_by_brace locs nip f) acc

/-- add_components_to_import: the import-synthesis pass.  The Rust
function pushes onto the result vector and returns Option unit; since
every fallible step precedes the first push, it is modelled as returning
the list of pushed candidates (none when nothing was pushed because an
early step failed). -/
def add_components_to_import (env : Env) (token : Token) (nextTokens : List Token)
    (available_types : List String) : Option (List CompletionItem) :=
  let current_file := token.sourceFile.path
  match env.urlOfFile current_file with
  | none => none
  | some current_uri =>
    match env.getDocument current_file with
    | none => none
    | some currentDocument =>
      match currentDocument.node with
      | none => none
      | some current_doc =>
        let locs := importLocations token.sourceFile current_doc.importSpecifiers
        let nip := new_import_position token.sourceFile current_doc
        let followed := is_followed_by_brace nextTokens
        some ((env.all_files.foldl (file_step env current_uri followed locs nip)
          (available_types, [])).2)

/-- The expression-position at-trigger candidates. -/
def at_trigger_builtin_list : List (String × String) :=
  [("tr", "tr(\"$1\")"),
   ("image-url", "image-url(\"$1\")"),
   ("linear-gradient", "linear-gradient($1)"),
   ("radial-gradient", "radial-gradient(circle, $1)")]

/-- The loop of the qualified-chain branch: track whether a dot was seen
since the last identifier, stop at the cursor token, resolve each
identifier segment against the object produced so far. -/
def chain_walk (cursorId : Nat) :
    List Token → LookupResult → Bool → Option (LookupResult × Bool)
  | [], expr_it, has_dot => some (expr_it, has_dot)
  | t :: ts, expr_it, has_dot =>
    let has_dot := has_dot || decide (t.kind = SyntaxKind.Dot)
    if t.id = cursorId then some (expr_it, has_dot)
    else if t.kind ≠ SyntaxKind.Identifier then chain_walk cursorId ts expr_it has_dot
    else
      match lookupIn expr_it (normalize_identifier t.text) with
      | none => none
      | some e2 => chain_walk cursorId ts e2 false

/-- The closure of the qualified-name-in-expression branch of
completion_at: skip to the first identifier or the cursor, fall back to
the plain expression scope when the cursor comes first, otherwise walk
the chain and enumerate the members of the final object when the walk
ended on a dot. -/
def qualified_expression_completion (cursorId : Nat) (tokens : List Token)
    (scope : ScopeEntries) : Option (List CompletionItem) :=
  let it := tokens.dropWhile fun t =>
    decide (t.kind ≠ SyntaxKind.Identifier) && decide (t.id ≠ cursorId)
  match it with
  | [] => resolve_expression_scope scope
  | first :: rest =>
    if first.id = cursorId then resolve_expression_scope scope
    else
      match scopeLookup scope (normalize_identifier first.text) with
      | none => none
      | some e0 =>
        match chain_walk cursorId rest e0 false with
        | none => none
        | some (e, has_dot) =>
          if has_dot then some (for_each_entry_items e) else none

/-- The closure applied to the resolve_element_scope result in the
element branch of completion_at: snippet transformation, keyword
candidates, and import synthesis. -/
def element_scope_postprocess (env : Env) (token : Token) (nextTokens : List Token)
    (snippet_support : Bool) (parentChildIdentifierText : Option String)
    (r : List CompletionItem) : List CompletionItem :=
  let pair :=
    if snippet_support then
      (r.map (snippet_transform nextTokens),
       r.filterMap fun c =>
         if c.kind = some CompletionItemKind.CLASS then some c.label else none)
    else (r, [])
  let is_global := decide (parentChildIdentifierText = some "global")
  let r2 := pair.1 ++ element_keyword_list.map fun p => keyword_item snippet_support p.1 p.2
  let r3 :=
    if !is_global then
      r2 ++ non_global_keyword_list.map fun p => keyword_item snippet_support p.1 p.2
    else r2
  if !is_global && snippet_support then
    r3 ++ (add_components_to_import env token nextTokens pair.2).getD []
  else r3

/-- The extra candidate appended for import specifiers without a slash. -/
def std_widgets_item : CompletionItem :=
  { CompletionItem.new_simple "std-widgets.slint" "" with
    kind := some CompletionItemKind.FILE }

/-- The shared identifier-filter path of the one-way binding, two-way
binding and callback-connection branches: the element scope of the
parent element filtered to one completion kind. -/
def binding_filtered_scope (env : Env) (parentElement : Option ElementView)
    (k : CompletionItemKind) : Option (List CompletionItem) :=
  parentElement.bind fun e =>
    (resolve_element_scope env e).map (List.filter fun ce => decide (ce.kind = some k))

/-- completion_at: the entry point of the completion engine, dispatching
on the cursor token and its enclosing node exactly like the if-else
chain of the Rust function.  A none result means no completion applies
at the cursor. -/
def completion_at (env : Env) (view : CursorView) (offset : Nat)
    (client_caps : Option CompletionClientCapabilities) :
    Option (List CompletionItem) :=
  let snippet_support := snippet_support_of client_caps
  if view.token.kind = SyntaxKind.StringLiteral then
    match view.node with
    | NodeView.importSpecifierParent => do
      let rel ← checkedSub offset view.token.startOffset
      let r ← complete_path_in_string env view.token.sourceFile.path view.token.text rel
      pure (if strContains view.token.text '/' then r else r ++ [std_widgets_item])
    | NodeView.atImageUrlParent => do
      let rel ← checkedSub offset view.token.startOffset
      complete_path_in_string env view.token.sourceFile.path view.token.text rel
    | _ => none
  else
    match view.node with
    | NodeView.element e parentChildIdentifierText =>
      if view.token.kind = SyntaxKind.At ∨
          (view.token.kind = SyntaxKind.Identifier ∧
            view.prevTokenKind = some SyntaxKind.At) then
        some [CompletionItem.new_simple "children" ""]
      else
        (resolve_element_scope env e).map
          (element_scope_postprocess env view.token view.nextTokens snippet_support
            parentChildIdentifierText)
    | NodeView.binding colonEnd parentElement exprScope =>
      match colonEnd with
      | some ce =>
        if offset ≥ ce then
          match exprScope with
          | none => none
          | some scope => resolve_expression_scope scope
        else if view.token.kind ≠ SyntaxKind.Identifier then none
        else binding_filtered_scope env parentElement CompletionItemKind.PROPERTY
      | none =>
        if view.token.kind ≠ SyntaxKind.Identifier then none
        else binding_filtered_scope env parentElement CompletionItemKind.PROPERTY
    | NodeView.twoWayBinding _ parentElement _ =>
      if view.token.kind ≠ SyntaxKind.Identifier then none
      else binding_filtered_scope env parentElement CompletionItemKind.PROPERTY
    | NodeView.callbackConnection _ parentElement _ =>
      if view.token.kind ≠ SyntaxKind.Identifier then none
      else binding_filtered_scope env parentElement CompletionItemKind.METHOD
    | NodeView.typePosition => resolve_type_scope env view.token
    | NodeView.propertyDeclaration =>
      if view.token.kind = SyntaxKind.LAngle then resolve_type_scope env view.token
      else none
    | NodeView.callbackDeclaration lparenEnd =>
      lparenEnd.bind fun pe =>
        if view.token.startOffset ≥ pe then resolve_type_scope env view.token
        else none
    | NodeView.expressionPosition exprScope =>
      if view.token.kind = SyntaxKind.At ∨
          (view.token.kind = SyntaxKind.Identifier ∧
            view.prevTokenKind = some SyntaxKind.At) then
        some (at_trigger_builtin_list.map fun p =>
          with_insert_text (CompletionItem.new_simple p.1 "") p.2 snippet_support)
      else
        match exprScope with
        | none => none
        | some scope => resolve_expression_scope scope
    | NodeView.qualifiedName parentKind tokens exprScope =>
      match parentKind with
      | some SyntaxKind.Element =>
        let tr := registryFor env view.token.sourceFile.path
        let result := tr.all_elements.filterMap fun kt =>
          if element_class_candidate kt.2 then
            some { CompletionItem.new_simple kt.1 "element" with
              kind := some CompletionItemKind.CLASS }
          else none
        if snippet_support then
          some (result ++
            (add_components_to_import env view.token view.nextTokens
              (result.map fun c => c.label)).getD [])
        else some result
      | some SyntaxKind.Type_ => resolve_type_scope env view.token
      | some SyntaxKind.Expression =>
        match exprScope with
        | none => none
        | some scope => qualified_expression_completion view.token.id tokens scope
      | _ => none
    | NodeView.importIdentifierList importStringLiteral =>
      match importStringLiteral with
      | none => none
      | some lit =>
        match env.resolveImportPath (trimQuotes lit) with
        | none => none
        | some path =>
          match env.getDocument path with
          | none => none
          | some doc => some (doc.exports.map fun ex => { label := ex.1 })
    | NodeView.document =>
      some (document_keyword_list.map fun p => keyword_item snippet_support p.1 p.2)
    | NodeView.state =>
      some [keyword_item snippet_support "when" "when $1: \x7b\n    $0\n\x7d"]
    | NodeView.propertyAnimation =>
      some (env.global_type_registry.property_animation_properties.map fun kt =>
        let c := { CompletionItem.new_simple kt.1 kt.2.toText with
          kind := some CompletionItemKind.PROPERTY }
        if snippet_support then
          { c with insert_text_format := some InsertTextFormat.snippet,
                   insert_text := some (c.label ++ ": $1;") }
        else c)
    | NodeView.importSpecifierParent => none
    | NodeView.atImageUrlParent => none
    | NodeView.other _ => none

/-
Specification-side definitions.  These follow the wording of the claims
and of the specification, and the theorems below relate them to the
code-side definitions above.
-/

/-- A token relevant to the trailing-dot tracking: an identifier or a
dot. -/
def relevantTok (t : Token) : Bool :=
  decide (t.kind = SyntaxKind.Identifier) || decide (t.kind = SyntaxKind.Dot)

/-- The state of the trailing-dot flag after consuming a token prefix,
starting from a given initial flag: the last identifier-or-dot token
decides, an identifier clearing and a dot setting the flag. -/
def trailingDotState (hd : Bool) (pre : List Token) : Bool :=
  match (pre.filter relevantTok).getLast? with
  | some t => decide (t.kind = SyntaxKind.Dot)
  | none => hd

/-- Whether the cursor token found in a token sequence is itself a dot. -/
def cursor_is_dot (cursorId : Nat) (ts : List Token) : Bool :=
  match ts.find? (fun t => decide (t.id = cursorId)) with
  | some t => decide (t.kind = SyntaxKind.Dot)
  | none => false

/-- The trailing-dot condition of the claim: the token sequence consumed
by the walk ends with a dot, where the cursor token itself contributes
exactly its dot-kind (the walk reads the dot flag of the cursor token
before stopping at it). -/
def endsWithDot (pre : List Token) (cursorIsDot : Bool) : Bool :=
  match ((pre.filter relevantTok).map Token.kind
      ++ if cursorIsDot then [SyntaxKind.Dot] else []).getLast? with
  | some SyntaxKind.Dot => true
  | _ => false

/-- Sequential resolution of already-normalized name segments against a
resolved object, each segment looked up on the object produced by the
previous one. -/
def resolveStrings (e : LookupResult) : List String → Option LookupResult
  | [] => some e
  | s :: ss =>
    match lookupIn e s with
    | none => none
    | some e2 => resolveStrings e2 ss

/-- Sequential resolution of the normalized name segments, the first
looked up on the global lookup object, each further one on the object
produced by the previous segment. -/
def resolveSegments (scope : ScopeEntries) : List String → Option LookupResult
  | [] => none
  | s :: ss =>
    match scopeLookup scope s with
    | none => none
    | some e0 => resolveStrings e0 ss

/-- Token-level counterpart of resolveStrings: resolve each identifier
token by its normalized text. -/
def resolveChainTokens (e : LookupResult) : List Token → Option LookupResult
  | [] => some e
  | t :: ts =>
    match lookupIn e (normalize_identifier t.text) with
    | none => none
    | some e2 => resolveChainTokens e2 ts

/-- The claim-side description of qualified-chain completion: if the
first examined token is the cursor (or nothing is examined), the plain
expression enumeration; otherwise resolve the identifier segments
consumed before the cursor in order and enumerate the members of the
final object exactly when the consumed sequence ends with a dot. -/
def chainSpecResult (cursorId : Nat) (tokens : List Token) (scope : ScopeEntries) :
    Option (List CompletionItem) :=
  let examined := tokens.dropWhile fun t =>
    decide (t.kind ≠ SyntaxKind.Identifier) && decide (t.id ≠ cursorId)
  match examined with
  | [] => resolve_expression_scope scope
  | first :: rest =>
    if first.id = cursorId then resolve_expression_scope scope
    else
      let pre := rest.takeWhile fun t => decide (t.id ≠ cursorId)
      let segs := (pre.filter fun t => decide (t.kind = SyntaxKind.Identifier)).map
        fun t => normalize_identifier t.text
      match resolveSegments scope (normalize_identifier first.text :: segs) with
      | none => none
      | some obj =>
        if endsWithDot pre (cursor_is_dot cursorId rest) then
          some (for_each_entry_items obj)
        else none

/-- A whitespace child that breaks a comment run (anything but one
single newline). -/
def isBadWs (c : DocChild) : Bool :=
  decide (c.kind = SyntaxKind.Whitespace) && decide (c.text ≠ "\n")

/-- A comment or whitespace child (a non-substantive document child). -/
def isCommentOrWs (c : DocChild) : Bool :=
  decide (c.kind = SyntaxKind.Comment) || decide (c.kind = SyntaxKind.Whitespace)

/-- The suffix of a child list strictly after its last run-breaking
whitespace (the whole list when there is none). -/
def attachedRun : List DocChild → List DocChild
  | [] => []
  | c :: rest =>
    if rest.any isBadWs then attachedRun rest
    else if isBadWs c then rest
    else c :: rest

/-- The claim-side description of the insertion offset in a file with
no imports: the start of the first comment of the unbroken comment run
attached to the first substantive child (only single-newline-separated
comment lines; any other whitespace resets the run), else the start of
the first substantive child itself. -/
def specInsertOffset (children : List DocChild) : Option Nat :=
  let pre := children.takeWhile isCommentOrWs
  match (attachedRun pre).find? (fun c => decide (c.kind = SyntaxKind.Comment)) with
  | some c => some c.start
  | none => ((children.dropWhile isCommentOrWs).head?).map fun c => c.start

/-- The generalized description of the import scan with an arbitrary
incoming offset state: a run-breaking whitespace in the non-substantive
prefix discards the incoming state; the result is the incoming state or
else the first comment of the attached run, and failing both the first
substantive child. -/
def scanSpec (l : List DocChild) (acc : Option Nat) : Option Nat :=
  let pre := l.takeWhile isCommentOrWs
  let fc := ((attachedRun pre).find? fun c =>
    decide (c.kind = SyntaxKind.Comment)).map fun c => c.start
  let base :=
    if pre.any isBadWs then fc
    else match acc with
      | some v => some v
      | none => fc
  match base with
  | some v => some v
  | none => ((l.dropWhile isCommentOrWs).head?).map fun c => c.start

/-- The invariant of the import-synthesis folds: the available set keeps
the initial names, the pushed candidates carry pairwise distinct filter
texts, and each pushed name is recorded in the available set but was not
initially available. -/
def ImportInv (avail0 : List String) (st : List String × List CompletionItem) : Prop :=
  (∀ n ∈ avail0, n ∈ st.1)
  ∧ (st.2.map CompletionItem.filter_text).Nodup
  ∧ (∀ i ∈ st.2, ∃ n, i.filter_text = some n ∧ n ∈ st.1 ∧ n ∉ avail0)

/-
Concrete data used by the witnesses and counterexamples.
-/

/-- A concrete source file whose position map sends offset n to line n. -/
def sfW : SourceFileView :=
  { path := "/w/main.slint", mapPosition := fun n => { line := n, character := 0 } }

/-- A token of the concrete source file. -/
def mkTok (k : SyntaxKind) (text : String) (start id : Nat) : Token :=
  { kind := k, text := text, startOffset := start, id := id, sourceFile := sfW }

/-- The empty registry. -/
def emptyRegistry : TypeRegistry :=
  { all_elements := [], all_types := [], property_animation_properties := [] }

/-- A minimal environment: empty registries, no documents, no files. -/
def envMin : Env :=
  { global_type_registry := emptyRegistry,
    getDocument := fun _ => none,
    all_files := [],
    read_dir := fun _ => none,
    base_directory := fun p => p,
    reserved_properties := [],
    urlOfFile := fun _ => none,
    makeRelative := fun _ _ => none,
    resolveImportPath := fun _ => none }

/-- Client capabilities announcing snippet support. -/
def capsSnippet : Option CompletionClientCapabilities :=
  some { completion_item := some { snippet_support := some true } }

/-- A concrete element: type with one property named width, no local
declarations. -/
def peW : ElementView :=
  { sourcePath := "/w/main.slint",
    propertyDeclarations := [],
    callbackDeclarations := [],
    elementType := some (ElementType.component false [("width", Ty.other "length" true)]) }

/-- A concrete element whose type declares a property foo and which also
declares a property foo locally (a local declaration shadowing an
inherited name). -/
def peShadow : ElementView :=
  { sourcePath := "/w/main.slint",
    propertyDeclarations := [{ declaredIdentifierText := some "foo", typeText := some "int" }],
    callbackDeclarations := [],
    elementType := some (ElementType.component false [("foo", Ty.other "int" true)]) }

/-- A concrete expression scope with a single entry named self. -/
def scopeSelf : ScopeEntries :=
  [("self", LookupResult.expr ExprKind.elementReference "Elem" [])]

/-- A concrete expression scope for the chain witness: a resolves to an
object with member b, which has members xx and yy. -/
def scopeChain : ScopeEntries :=
  [("a", LookupResult.expr ExprKind.elementReference "Bar"
     [("b", LookupResult.expr ExprKind.propertyReference "S"
        [("xx", LookupResult.expr ExprKind.propertyReference "int" []),
         ("yy", LookupResult.expr ExprKind.propertyReference "string" [])])])]

/-- The token sequence of the qualified name a.b. with the cursor on the
final dot (token id 13). -/
def toksChain : List Token :=
  [mkTok SyntaxKind.Identifier "a" 0 10,
   mkTok SyntaxKind.Dot "." 1 11,
   mkTok SyntaxKind.Identifier "b" 2 12,
   mkTok SyntaxKind.Dot "." 3 13]

/-- The cursor view of the chain witness. -/
def viewChain : CursorView :=
  { token := mkTok SyntaxKind.Dot "." 3 13,
    prevTokenKind := none,
    nextTokens := [],
    node := NodeView.qualifiedName (some SyntaxKind.Expression) toksChain (some scopeChain) }

/-- A cursor view inside a two-way binding, with the separator ending at
offset 5, on an identifier token: used against claim C2. -/
def viewTwoWay : CursorView :=
  { token := mkTok SyntaxKind.Identifier "x" 8 0,
    prevTokenKind := none,
    nextTokens := [],
    node := NodeView.twoWayBinding (some 5) (some peW) (some scopeSelf) }

/-- A cursor view inside a callback connection on an identifier token. -/
def viewConnection : CursorView :=
  { token := mkTok SyntaxKind.Identifier "x" 8 0,
    prevTokenKind := none,
    nextTokens := [],
    node := NodeView.callbackConnection (some 5) (some peW) (some scopeSelf) }

/-- A cursor view inside a one-way binding whose colon ends at offset 5. -/
def viewBinding : CursorView :=
  { token := mkTok SyntaxKind.Identifier "w" 3 0,
    prevTokenKind := none,
    nextTokens := [],
    node := NodeView.binding (some 5) (some peW) (some scopeSelf) }

/-- A cursor view in an element body (no at-trigger, no brace after). -/
def viewElement : CursorView :=
  { token := mkTok SyntaxKind.Identifier "R" 3 0,
    prevTokenKind := none,
    nextTokens := [],
    node := NodeView.element peW none }

/-- A cursor view in an element body whose element locally shadows an
inherited property name. -/
def viewElementShadow : CursorView :=
  { token := mkTok SyntaxKind.Identifier "R" 3 0,
    prevTokenKind := none,
    nextTokens := [],
    node := NodeView.element peShadow none }

/-- A cursor view directly inside a state list (the States node), as in
an empty states block. -/
def viewStatesList : CursorView :=
  { token := mkTok SyntaxKind.Whitespace " " 3 0,
    prevTokenKind := none,
    nextTokens := [],
    node := NodeView.other SyntaxKind.States }

/-- A cursor view inside a State node, as right after a state name. -/
def viewState : CursorView :=
  { token := mkTok SyntaxKind.Whitespace " " 3 0,
    prevTokenKind := none,
    nextTokens := [],
    node := NodeView.state }

/-- An environment whose filesystem returns one plain file entry for
every directory. -/
def envFs : Env :=
  { envMin with
    read_dir := fun _ =>
      some [some { file_name := some "foo.slint", is_dir := some false }] }

/-- A cursor view on the string literal of an import specifier. -/
def viewImportString : CursorView :=
  { token := mkTok SyntaxKind.StringLiteral "\"fo\"" 100 0,
    prevTokenKind := none,
    nextTokens := [],
    node := NodeView.importSpecifierParent }

/-- A cursor view on the string literal of an image url. -/
def viewImageString : CursorView :=
  { token := mkTok SyntaxKind.StringLiteral "\"fo\"" 100 0,
    prevTokenKind := none,
    nextTokens := [],
    node := NodeView.atImageUrlParent }

/-- The current document of the import-synthesis witness: no imports,
one substantive child at offset 0. -/
def docNodeW : DocNodeView :=
  { importSpecifiers := [],
    childrenWithTokens := [{ kind := SyntaxKind.Other, start := 0, text := "component" }] }

/-- The other document of the import-synthesis witness, exporting one
non-global component Foo and one global. -/
def docOtherW : DocumentView :=
  { local_registry := emptyRegistry,
    exports := [("Foo", ExportTy.component false), ("Glob", ExportTy.component true)],
    node := none }

/-- The current document record of the import-synthesis witness. -/
def docCurrentW : DocumentView :=
  { local_registry := emptyRegistry, exports := [], node := some docNodeW }

/-- The environment of the import-synthesis witness: the current file
plus one other file exporting Foo. -/
def envImp : Env :=
  { global_type_registry := emptyRegistry,
    getDocument := fun p =>
      if p = "/w/main.slint" then some docCurrentW
      else if p = "/w/other.slint" then some docOtherW
      else none,
    all_files := ["/w/other.slint"],
    read_dir := fun _ => none,
    base_directory := fun p => p,
    reserved_properties := [],
    urlOfFile := fun p => some ("file://" ++ p),
    makeRelative := fun _ _ => some "other.slint",
    resolveImportPath := fun _ => none }

/-- A document node with one import statement ending at offset 42. -/
def docNodeWithImport : DocNodeView :=
  { importSpecifiers :=
      [{ importIdentifierList := some [{ endOffset := 20 }],
         stringLiteral := some "\"other.slint\"",
         endOffset := 42 }],
    childrenWithTokens := [{ kind := SyntaxKind.Other, start := 50, text := "component" }] }

/-- A document node with no imports, a license comment separated by a
blank line from a doc-comment run attached to the first substantive
child. -/
def docNodeComments : DocNodeView :=
  { importSpecifiers := [],
    childrenWithTokens :=
      [{ kind := SyntaxKind.Comment, start := 0, text := "license" },
       { kind := SyntaxKind.Whitespace, start := 9, text := "\n\n" },
       { kind := SyntaxKind.Comment, start := 11, text := "doc1" },
       { kind := SyntaxKind.Whitespace, start := 17, text := "\n" },
       { kind := SyntaxKind.Comment, start := 18, text := "doc2" },
       { kind := SyntaxKind.Whitespace, start := 24, text := "\n" },
       { kind := SyntaxKind.Other, start := 25, text := "component" }] }

/-
Theorems.
-/

/-- complete_path_in_string factored through the resolved directory:
the guards and the quote stripping produce the path, then the directory
listing is mapped to candidates. -/
theorem complete_path_in_string_eq_resolved (env : Env) (base text : String)
    (off : Nat) :
    complete_path_in_string env base text off =
      (resolved_path env base text off).bind fun p =>
        (env.read_dir p).map fun dir => dir.filterMap dir_entry_item := by
  unfold complete_path_in_string resolved_path
  by_cases hg : off > text.length ∨ off = 0
  · simp [hg]
  · simp only [if_neg hg]
    cases hq : stripLeadingQuote text with
    | none => simp
    | some t1 =>
      simp only [Option.bind_some, Option.map_some']
      cases hrd : env.read_dir (resolved_dir env base (t1.take (off - 1))) <;> simp [hrd]

/-- C9: path completion inside a string literal returns no result (as
opposed to an empty list) when the cursor offset relative to the token
start is zero (at the opening quote) or greater than the text length,
and likewise returns no result rather than an error when the resolved
directory cannot be read; a request at the very start offset of the
string token therefore yields none for the whole completion call. -/
theorem c9_path_guards (env : Env) :
    (∀ base text, complete_path_in_string env base text 0 = none)
    ∧ (∀ base text off, off > text.length →
        complete_path_in_string env base text off = none)
    ∧ (∀ base text off p, resolved_path env base text off = some p →
        env.read_dir p = none → complete_path_in_string env base text off = none)
    ∧ (∀ view caps, view.token.kind = SyntaxKind.StringLiteral →
        completion_at env view view.token.startOffset caps = none) := by
  refine ⟨?_, ?_, ?_, ?_⟩
  · intro base text
    simp [complete_path_in_string]
  · intro base text off h
    simp [complete_path_in_string, h]
  · intro base text off p hp hrd
    rw [complete_path_in_string_eq_resolved, hp]
    simp [hrd]
  · intro view caps hsl
    have h0 : checkedSub view.token.startOffset view.token.startOffset = some 0 := by
      simp [checkedSub]
    have hn : complete_path_in_string env view.token.sourceFile.path view.token.text 0
        = none := by
      simp [complete_path_in_string]
    unfold completion_at
    rw [if_pos hsl]
    cases view.node <;> simp [h0, hn]

/-- C9 witness: the guards at concrete inputs. -/
theorem c9_path_guards_witness :
    complete_path_in_string envMin "/w" "\"ab\"" 0 = none
    ∧ complete_path_in_string envMin "/w" "\"ab\"" 9 = none
    ∧ complete_path_in_string envMin "/w" "\"ab\"" 2 = none
    ∧ completion_at envMin viewImportString viewImportString.token.startOffset none = none := by
  refine ⟨(c9_path_guards envMin).1 "/w" "\"ab\"",
          (c9_path_guards envMin).2.1 "/w" "\"ab\"" 9 (by decide),
          (c9_path_guards envMin).2.2.1 "/w" "\"ab\"" 2 "/w" (by decide) rfl,
          (c9_path_guards envMin).2.2.2 viewImportString none rfl⟩

/-- C10: when path completion on an import-specifier string literal
succeeds and the literal text contains no slash, one extra file-kind
candidate labeled std-widgets.slint is appended to the
filesystem-derived list; nothing is appended for literals containing a
slash or for image-url literals. -/
theorem c10_std_widgets_extra (env : Env) (view : CursorView) (off : Nat)
    (caps : Option CompletionClientCapabilities) (rel : Nat) (r : List CompletionItem)
    (hkind : view.token.kind = SyntaxKind.StringLiteral)
    (hrel : checkedSub off view.token.startOffset = some rel)
    (hpath : complete_path_in_string env view.token.sourceFile.path view.token.text rel
      = some r) :
    (view.node = NodeView.importSpecifierParent →
      strContains view.token.text '/' = false →
      completion_at env view off caps = some (r ++ [std_widgets_item]))
    ∧ (view.node = NodeView.importSpecifierParent →
      strContains view.token.text '/' = true →
      completion_at env view off caps = some r)
    ∧ (view.node = NodeView.atImageUrlParent →
      completion_at env view off caps = some r) := by
  refine ⟨?_, ?_, ?_⟩
  · intro hnode hslash
    simp [completion_at, hkind, hnode, hrel, hpath, hslash]
  · intro hnode hslash
    simp [completion_at, hkind, hnode, hrel, hpath, hslash]
  · intro hnode
    simp [completion_at, hkind, hnode, hrel, hpath]

/-- C10 witness: a concrete import-specifier literal without a slash
gets the extra candidate, the image-url variant does not. -/
theorem c10_std_widgets_extra_witness :
    completion_at envFs viewImportString 102 none =
      some [{ label := "foo.slint", detail := some "", kind := some CompletionItemKind.FILE },
            std_widgets_item]
    ∧ completion_at envFs viewImageString 102 none =
      some [{ label := "foo.slint", detail := some "", kind := some CompletionItemKind.FILE }] := by
  constructor
  · rw [(c10_std_widgets_extra envFs viewImportString 102 none 2
      [{ label := "foo.slint", detail := some "", kind := some CompletionItemKind.FILE }]
      rfl (by decide) (by decide)).1 rfl (by decide)]
    simp
  · exact (c10_std_widgets_extra envFs viewImageString 102 none 2
      [{ label := "foo.slint", detail := some "", kind := some CompletionItemKind.FILE }]
      rfl (by decide) (by decide)).2.2 rfl

/-- C8: a cursor whose enclosing node is the state-list node itself (the
situation inside an empty states block, or between two complete state
clauses) yields no completion result, while a cursor whose enclosing
node is a State node (the situation right after a state name, also with
later sibling states present, which the branch never inspects) yields
exactly the single keyword candidate named when. -/
theorem c8_state_keyword (env : Env) (view : CursorView) (off : Nat)
    (caps : Option CompletionClientCapabilities) :
    (view.node = NodeView.other SyntaxKind.States →
      completion_at env view off caps = none)
    ∧ (view.node = NodeView.state → view.token.kind ≠ SyntaxKind.StringLiteral →
      completion_at env view off caps =
        some [keyword_item (snippet_support_of caps) "when" "when $1: \x7b\n    $0\n\x7d"]) := by
  constructor
  · intro hnode
    by_cases hsl : view.token.kind = SyntaxKind.StringLiteral
    · simp [completion_at, hsl, hnode]
    · simp [completion_at, hsl, hnode]
  · intro hnode hsl
    simp [completion_at, hsl, hnode]

/-- C8 witness: the empty-state-list view yields none, the after-name
view yields the when keyword. -/
theorem c8_state_keyword_witness :
    completion_at envMin viewStatesList 3 none = none
    ∧ completion_at envMin viewState 3 none =
      some [keyword_item (snippet_support_of none) "when" "when $1: \x7b\n    $0\n\x7d"] :=
  ⟨(c8_state_keyword envMin viewStatesList 3 none).1 rfl,
   (c8_state_keyword envMin viewState 3 none).2 rfl (by decide)⟩

/-- C2 as amended: inside a two-way binding or a callback connection the
code never delegates to the expression scope, regardless of the cursor
position relative to the separator; an identifier cursor token gets the
property names (respectively callback names) of the parent element, any
other cursor token gets no result. -/
theorem c2_connection_restriction (env : Env) (view : CursorView) (off : Nat)
    (caps : Option CompletionClientCapabilities) :
    (∀ sepEnd pe scope e, view.node = NodeView.twoWayBinding sepEnd pe scope →
      (view.token.kind = SyntaxKind.Identifier → pe = some e →
        completion_at env view off caps =
          (resolve_element_scope env e).map
            (List.filter fun ce => decide (ce.kind = some CompletionItemKind.PROPERTY)))
      ∧ (view.token.kind ≠ SyntaxKind.Identifier →
        completion_at env view off caps = none))
    ∧ (∀ sepEnd pe scope e, view.node = NodeView.callbackConnection sepEnd pe scope →
      (view.token.kind = SyntaxKind.Identifier → pe = some e →
        completion_at env view off caps =
          (resolve_element_scope env e).map
            (List.filter fun ce => decide (ce.kind = some CompletionItemKind.METHOD)))
      ∧ (view.token.kind ≠ SyntaxKind.Identifier →
        completion_at env view off caps = none)) := by
  constructor
  · intro sepEnd pe scope e hnode
    constructor
    · intro hid hpe
      have hsl : ¬ view.token.kind = SyntaxKind.StringLiteral := by
        rw [hid]; intro h; cases h
      simp [completion_at, hsl, hnode, hid, binding_filtered_scope, hpe]
    · intro hid
      by_cases hsl : view.token.kind = SyntaxKind.StringLiteral
      · simp [completion_at, hsl, hnode]
      · simp [completion_at, hsl, hnode, hid]
  · intro sepEnd pe scope e hnode
    constructor
    · intro hid hpe
      have hsl : ¬ view.token.kind = SyntaxKind.StringLiteral := by
        rw [hid]; intro h; cases h
      simp [completion_at, hsl, hnode, hid, binding_filtered_scope, hpe]
    · intro hid
      by_cases hsl : view.token.kind = SyntaxKind.StringLiteral
      · simp [completion_at, hsl, hnode]
      · simp [completion_at, hsl, hnode, hid]

/-- C2 counterexample: a concrete two-way binding request whose cursor
sits past the separator (separator ends at offset 5, cursor offset 10)
on an identifier token.  The claim mandates the full expression scope of
the active lookup context; the code returns the property names of the
parent element instead. -/
theorem c2_counterexample :
    viewTwoWay.node = NodeView.twoWayBinding (some 5) (some peW) (some scopeSelf)
    ∧ viewTwoWay.token.kind = SyntaxKind.Identifier
    ∧ 10 ≥ 5
    ∧ completion_at envMin viewTwoWay 10 none ≠ resolve_expression_scope scopeSelf :=
  ⟨rfl, rfl, by decide, by decide⟩

/-- C2 witness: the amended behavior at concrete inputs. -/
theorem c2_connection_restriction_witness :
    completion_at envMin viewTwoWay 10 none =
      (resolve_element_scope envMin peW).map
        (List.filter fun ce => decide (ce.kind = some CompletionItemKind.PROPERTY))
    ∧ completion_at envMin viewConnection 10 none =
      (resolve_element_scope envMin peW).map
        (List.filter fun ce => decide (ce.kind = some CompletionItemKind.METHOD)) :=
  ⟨((c2_connection_restriction envMin viewTwoWay 10 none).1
      (some 5) (some peW) (some scopeSelf) peW rfl).1 rfl rfl,
   ((c2_connection_restriction envMin viewConnection 10 none).2
      (some 5) (some peW) (some scopeSelf) peW rfl).1 rfl rfl⟩

/-- C3: inside a one-way binding containing a colon token, a cursor at
or past the end of the colon gets the full expression-scope enumeration
of the active lookup context, and a cursor before the colon on an
identifier token gets exactly the property-kind entries of the enclosing
element scope and nothing else. -/
theorem c3_binding_colon_split (env : Env) (view : CursorView) (off : Nat)
    (caps : Option CompletionClientCapabilities) (ce : Nat)
    (pe : Option ElementView) (scope? : Option ScopeEntries)
    (sc : ScopeEntries) (e : ElementView)
    (hnode : view.node = NodeView.binding (some ce) pe scope?)
    (hkind : view.token.kind ≠ SyntaxKind.StringLiteral) :
    (off ≥ ce → scope? = some sc →
      completion_at env view off caps = resolve_expression_scope sc)
    ∧ (off < ce → view.token.kind = SyntaxKind.Identifier → pe = some e →
      completion_at env view off caps =
        (resolve_element_scope env e).map
          (List.filter fun x => decide (x.kind = some CompletionItemKind.PROPERTY))) := by
  constructor
  · intro hge hsc
    simp [completion_at, hkind, hnode, hge, hsc]
  · intro hlt hid hpe
    have hnge : ¬ off ≥ ce := by omega
    simp [completion_at, hkind, hnode, hnge, hid, binding_filtered_scope, hpe]

/-- C3 witness: the two sides of the colon at concrete offsets (colon
ends at 5; offsets 10 and 3). -/
theorem c3_binding_colon_split_witness :
    completion_at envMin viewBinding 10 none = resolve_expression_scope scopeSelf
    ∧ completion_at envMin viewBinding 3 none =
      (resolve_element_scope envMin peW).map
        (List.filter fun x => decide (x.kind = some CompletionItemKind.PROPERTY)) :=
  ⟨(c3_binding_colon_split envMin viewBinding 10 none 5 (some peW) (some scopeSelf)
      scopeSelf peW rfl (by decide)).1 (by decide) rfl,
   (c3_binding_colon_split envMin viewBinding 3 none 5 (some peW) (some scopeSelf)
      scopeSelf peW rfl (by decide)).2 (by decide) rfl rfl⟩

/-- Every candidate produced by resolve_element_scope carries no insert
text yet (snippets are attached later by the postprocessing). -/
theorem resolve_element_scope_insert_text_none (env : Env) (e : ElementView)
    (all : List CompletionItem) (h : resolve_element_scope env e = some all) :
    ∀ c ∈ all, c.insert_text = none := by
  have hA : ∀ c ∈ element_type_items (e.elementType.getD ElementType.error),
      c.insert_text = none := by
    intro c hc
    obtain ⟨x, _, rfl⟩ := List.mem_map.mp hc
    rfl
  have hB : ∀ c ∈ declared_property_items e, c.insert_text = none := by
    intro c hc
    obtain ⟨x, _, rfl⟩ := List.mem_map.mp hc
    rfl
  have hC : ∀ c ∈ declared_callback_items e, c.insert_text = none := by
    intro c hc
    obtain ⟨x, _, rfl⟩ := List.mem_map.mp hc
    rfl
  have hD : ∀ c ∈ reserved_property_items env, c.insert_text = none := by
    intro c hc
    obtain ⟨x, _, hfx⟩ := List.mem_filterMap.mp hc
    split at hfx
    · cases hfx
    · cases hfx; rfl
  have hE : ∀ c ∈ class_candidate_items (registryFor env e.sourcePath),
      c.insert_text = none := by
    intro c hc
    obtain ⟨x, _, hfx⟩ := List.mem_filterMap.mp hc
    split at hfx
    · cases hfx; rfl
    · cases hfx
  unfold resolve_element_scope at h
  injection h with h
  subst h
  intro c hc
  split at hc
  · rcases List.mem_append.mp hc with h1 | h1
    · rcases List.mem_append.mp h1 with h2 | h2
      · rcases List.mem_append.mp h2 with h3 | h3
        · rcases List.mem_append.mp h3 with h4 | h4
          · exact hA c h4
          · exact hB c h4
        · exact hC c h3
      · exact hD c h2
    · exact hE c h1
  · rcases List.mem_append.mp hc with h1 | h1
    · rcases List.mem_append.mp h1 with h2 | h2
      · exact hA c h2
      · exact hB c h2
    · exact hC c h1

/-- C7: with snippet support, the element-scope candidates are each
transformed by the snippet transformation, which gives property
candidates the insert text label colon dollar-one semicolon, method
candidates the arrow-block snippet, and class candidates the open-brace
snippet, except that a class candidate whose cursor token is already
followed by an opening brace (ignoring whitespace) keeps its absent
insert text. -/
theorem c7_snippet_transformation (env : Env) (view : CursorView) (off : Nat)
    (caps : Option CompletionClientCapabilities) (e : ElementView)
    (pid : Option String) (all : List CompletionItem)
    (hnode : view.node = NodeView.element e pid)
    (hat : ¬(view.token.kind = SyntaxKind.At ∨
      (view.token.kind = SyntaxKind.Identifier ∧
        view.prevTokenKind = some SyntaxKind.At)))
    (hkind : view.token.kind ≠ SyntaxKind.StringLiteral)
    (hsnip : snippet_support_of caps = true)
    (hall : resolve_element_scope env e = some all) :
    (∃ rest, completion_at env view off caps =
      some (all.map (snippet_transform view.nextTokens) ++ rest))
    ∧ (∀ c ∈ all, c.insert_text = none)
    ∧ (∀ c : CompletionItem,
      (c.kind = some CompletionItemKind.PROPERTY →
        (snippet_transform view.nextTokens c).insert_text = some (c.label ++ ": $1;"))
      ∧ (c.kind = some CompletionItemKind.METHOD →
        (snippet_transform view.nextTokens c).insert_text =
          some (c.label ++ " => \x7b$1\x7d"))
      ∧ (c.kind = some CompletionItemKind.CLASS →
          is_followed_by_brace view.nextTokens = false →
        (snippet_transform view.nextTokens c).insert_text =
          some (c.label ++ " \x7b$1\x7d"))
      ∧ (c.kind = some CompletionItemKind.CLASS →
          is_followed_by_brace view.nextTokens = true →
        (snippet_transform view.nextTokens c).insert_text = c.insert_text)) := by
  refine ⟨?_, resolve_element_scope_insert_text_none env e all hall, ?_⟩
  · have hca : completion_at env view off caps =
        some (element_scope_postprocess env view.token view.nextTokens true pid all) := by
      simp [completion_at, hkind, hnode, hat, hall, hsnip]
    rw [hca]
    unfold element_scope_postprocess
    simp only [if_true]
    by_cases hig : pid = some "global"
    · refine ⟨element_keyword_list.map fun p => keyword_item true p.1 p.2, ?_⟩
      simp [hig]
    · refine ⟨(element_keyword_list.map fun p => keyword_item true p.1 p.2)
        ++ (non_global_keyword_list.map fun p => keyword_item true p.1 p.2)
        ++ (add_components_to_import env view.token view.nextTokens
             (all.filterMap fun c =>
               if c.kind = some CompletionItemKind.CLASS then some c.label
               else none)).getD [], ?_⟩
      simp [hig, List.append_assoc]
  · intro c
    refine ⟨?_, ?_, ?_, ?_⟩
    · intro h1
      simp [snippet_transform, h1]
    · intro h1
      simp [snippet_transform, h1]
    · intro h1 h2
      simp [snippet_transform, h1, h2]
    · intro h1 h2
      simp [snippet_transform, h1, h2]

/-- C7 witness: the transformation at a concrete element-scope request. -/
theorem c7_snippet_transformation_witness :
    (∃ rest, completion_at envMin viewElement 0 capsSnippet =
      some ([({ label := "width", detail := some "length",
                kind := some CompletionItemKind.PROPERTY } : CompletionItem)].map
        (snippet_transform viewElement.nextTokens) ++ rest))
    ∧ (snippet_transform viewElement.nextTokens
        { label := "width", detail := some "length",
          kind := some CompletionItemKind.PROPERTY }).insert_text =
      some "width: $1;" := by
  constructor
  · exact (c7_snippet_transformation envMin viewElement 0 capsSnippet peW none
      [{ label := "width", detail := some "length",
         kind := some CompletionItemKind.PROPERTY }]
      rfl (by decide) (by decide) (by decide) (by decide)).1
  · decide

/-- Membership transfer into the element-scope result from its leading
base segment (type properties and local declarations). -/
theorem mem_resolve_element_scope_of_base (env : Env) (e : ElementView)
    (all : List CompletionItem) (c : CompletionItem)
    (hall : resolve_element_scope env e = some all)
    (hc : c ∈ element_type_items (e.elementType.getD ElementType.error)
      ++ declared_property_items e ++ declared_callback_items e) :
    c ∈ all := by
  unfold resolve_element_scope at hall
  injection hall with hall
  subst hall
  split
  · exact List.mem_append_left _ (List.mem_append_left _ hc)
  · exact hc

/-- Membership transfer into the element-scope result from the class
candidates (non-global elements only). -/
theorem mem_resolve_element_scope_of_classes (env : Env) (e : ElementView)
    (all : List CompletionItem) (c : CompletionItem)
    (hall : resolve_element_scope env e = some all)
    (hng : (e.elementType.getD ElementType.error).isGlobalVariant = false)
    (hc : c ∈ class_candidate_items (registryFor env e.sourcePath)) :
    c ∈ all := by
  unfold resolve_element_scope at hall
  simp only [hng, Bool.not_false, if_true, Option.some.injEq] at hall
  subst hall
  exact List.mem_append_right _ hc

/-- C4 as amended: the element-scope candidate set contains every
property and callback of the resolved element type (classified method
exactly for callback-typed entries), every locally declared in-source
property and callback, and, unless the element is a global block, every
registry class candidate; the entries derived from the type repeat no
name as long as the type property list itself has none (the registry
invariant), but a local declaration shadowing an inherited property
contributes a second entry with the same label, so label uniqueness
holds only for the type-derived prefix of the set. -/
theorem c4_element_scope_contents (env : Env) (e : ElementView)
    (all : List CompletionItem)
    (hall : resolve_element_scope env e = some all) :
    (∀ kt ∈ (e.elementType.getD ElementType.error).property_list,
      ∃ c ∈ all, c.label = kt.1 ∧
        c.kind = some (if kt.2.isCallbackLike then CompletionItemKind.METHOD
                       else CompletionItemKind.PROPERTY))
    ∧ (∀ pr ∈ e.propertyDeclarations, ∃ c ∈ all,
        c.label = pr.declaredIdentifierText.getD "" ∧
        c.kind = some CompletionItemKind.PROPERTY)
    ∧ (∀ cd ∈ e.callbackDeclarations, ∃ c ∈ all,
        c.label = cd.declaredIdentifierText.getD "" ∧
        c.kind = some CompletionItemKind.METHOD)
    ∧ ((e.elementType.getD ElementType.error).isGlobalVariant = false →
      ∀ kt ∈ (registryFor env e.sourcePath).all_elements,
        element_class_candidate kt.2 = true →
        ∃ c ∈ all, c.label = kt.1 ∧ c.kind = some CompletionItemKind.CLASS)
    ∧ (((e.elementType.getD ElementType.error).property_list.map Prod.fst).Nodup →
      ((all.take (e.elementType.getD ElementType.error).property_list.length).map
        CompletionItem.label).Nodup) := by
  refine ⟨?_, ?_, ?_, ?_, ?_⟩
  · intro kt hkt
    refine ⟨element_type_item kt, ?_, rfl, rfl⟩
    refine mem_resolve_element_scope_of_base env e all _ hall ?_
    exact List.mem_append_left _ (List.mem_append_left _
      (List.mem_map_of_mem element_type_item hkt))
  · intro pr hpr
    refine ⟨{ CompletionItem.new_simple (pr.declaredIdentifierText.getD "")
        (pr.typeText.getD "property") with
      kind := some CompletionItemKind.PROPERTY }, ?_, rfl, rfl⟩
    refine mem_resolve_element_scope_of_base env e all _ hall ?_
    exact List.mem_append_left _ (List.mem_append_right _
      (List.mem_map_of_mem _ hpr))
  · intro cd hcd
    refine ⟨{ CompletionItem.new_simple (cd.declaredIdentifierText.getD "")
        "callback" with
      kind := some CompletionItemKind.METHOD }, ?_, rfl, rfl⟩
    refine mem_resolve_element_scope_of_base env e all _ hall ?_
    exact List.mem_append_right _ (List.mem_map_of_mem _ hcd)
  · intro hng kt hkt hcand
    refine ⟨{ CompletionItem.new_simple kt.1 "element" with
      kind := some CompletionItemKind.CLASS }, ?_, rfl, rfl⟩
    refine mem_resolve_element_scope_of_classes env e all _ hall hng ?_
    refine List.mem_filterMap.mpr ⟨kt, hkt, ?_⟩
    rw [hcand]
    simp
  · intro hnd
    have htake : all.take (e.elementType.getD ElementType.error).property_list.length
        = element_type_items (e.elementType.getD ElementType.error) := by
      unfold resolve_element_scope at hall
      injection hall with hall
      subst hall
      have hlen : (e.elementType.getD ElementType.error).property_list.length
          = (element_type_items (e.elementType.getD ElementType.error)).length := by
        simp [element_type_items]
      rw [hlen]
      split
      · simp only [List.append_assoc]
        exact List.take_left _ _
      · simp only [List.append_assoc]
        exact List.take_left _ _
    rw [htake]
    unfold element_type_items
    rw [List.map_map]
    exact hnd

/-- C4 counterexample: the claim asserts no property name occurs more
than once even under local shadowing, but a local in-source declaration
of a property named foo on an element whose type already has a property
foo produces two candidates labeled foo. -/
theorem c4_counterexample :
    ¬ (((resolve_element_scope envMin peShadow).getD []).map
      CompletionItem.label).Nodup := by decide

/-- C4 witness: the inherited property of the concrete element appears
in its element scope. -/
theorem c4_element_scope_contents_witness :
    ∃ c ∈ [({ label := "width", detail := some "length",
              kind := some CompletionItemKind.PROPERTY } : CompletionItem)],
      c.label = ("width", Ty.other "length" true).1 ∧
      c.kind = some (if ("width", Ty.other "length" true).2.isCallbackLike then
        CompletionItemKind.METHOD else CompletionItemKind.PROPERTY) :=
  (c4_element_scope_contents envMin peW
    [{ label := "width", detail := some "length",
       kind := some CompletionItemKind.PROPERTY }]
    (by decide)).1 ("width", Ty.other "length" true) (by decide)

/-- Consuming one token updates the trailing-dot state: a relevant token
(identifier or dot) overwrites the state with its dot-kind, any other
token leaves it. -/
theorem trailingDotState_cons (hd : Bool) (t : Token) (pre : List Token) :
    trailingDotState hd (t :: pre) =
      trailingDotState
        (if relevantTok t then decide (t.kind = SyntaxKind.Dot) else hd) pre := by
  unfold trailingDotState
  by_cases hr : relevantTok t = true
  · rw [if_pos hr]
    have hfil : (t :: pre).filter relevantTok = t :: pre.filter relevantTok := by
      simp [List.filter_cons, hr]
    rw [hfil]
    cases hfp : pre.filter relevantTok with
    | nil => simp
    | cons b l2 =>
      rw [List.getLast?_cons_cons]
      cases hgl : (b :: l2).getLast? with
      | none =>
        rw [List.getLast?_eq_none_iff] at hgl
        cases hgl
      | some x => rfl
  · rw [if_neg hr]
    have hfil : (t :: pre).filter relevantTok = pre.filter relevantTok := by
      simp [List.filter_cons, hr]
    rw [hfil]

/-- The loop of the qualified-chain branch, characterized: it resolves
exactly the identifier tokens consumed strictly before the cursor, in
order, and its final dot flag is the trailing-dot state of the consumed
prefix, with the cursor token contributing its own dot-kind. -/
theorem chain_walk_spec (cursorId : Nat) (ts : List Token) :
    ∀ (e : LookupResult) (hd : Bool),
    chain_walk cursorId ts e hd =
      (match resolveChainTokens e
          ((ts.takeWhile fun t => decide (t.id ≠ cursorId)).filter
            fun t => decide (t.kind = SyntaxKind.Identifier)) with
      | none => none
      | some e2 =>
        some (e2,
          trailingDotState hd (ts.takeWhile fun t => decide (t.id ≠ cursorId))
            || cursor_is_dot cursorId ts)) := by
  induction ts with
  | nil =>
    intro e hd
    simp [chain_walk, resolveChainTokens, trailingDotState, cursor_is_dot]
  | cons t ts ih =>
    intro e hd
    by_cases hcur : t.id = cursorId
    · have h1 : (t :: ts).takeWhile (fun t => decide (t.id ≠ cursorId)) = [] := by
        simp [List.takeWhile_cons, hcur]
      have h2 : cursor_is_dot cursorId (t :: ts) = decide (t.kind = SyntaxKind.Dot) := by
        simp [cursor_is_dot, List.find?_cons, hcur]
      rw [h1, h2]
      simp [chain_walk, hcur, resolveChainTokens, trailingDotState]
    · have h1 : (t :: ts).takeWhile (fun t => decide (t.id ≠ cursorId)) =
          t :: ts.takeWhile (fun t => decide (t.id ≠ cursorId)) := by
        simp [List.takeWhile_cons, hcur]
      have hcd : cursor_is_dot cursorId (t :: ts) = cursor_is_dot cursorId ts := by
        simp [cursor_is_dot, List.find?_cons, hcur]
      rw [h1, hcd, trailingDotState_cons]
      by_cases hid : t.kind = SyntaxKind.Identifier
      · have hni : ¬ t.kind ≠ SyntaxKind.Identifier := by simp [hid]
        have hrel : (if relevantTok t then decide (t.kind = SyntaxKind.Dot) else hd)
            = false := by
          simp [relevantTok, hid]
        rw [hrel]
        have hfl : (t :: ts.takeWhile fun t => decide (t.id ≠ cursorId)).filter
            (fun t => decide (t.kind = SyntaxKind.Identifier)) =
            t :: (ts.takeWhile fun t => decide (t.id ≠ cursorId)).filter
              (fun t => decide (t.kind = SyntaxKind.Identifier)) := by
          simp [List.filter_cons, hid]
        rw [hfl]
        cases hl : lookupIn e (normalize_identifier t.text) with
        | none =>
          simp only [chain_walk, if_neg hcur, if_neg hni, hl, resolveChainTokens]
        | some e2 =>
          simp only [chain_walk, if_neg hcur, if_neg hni, hl, resolveChainTokens]
          exact ih e2 false
      · have hfl : (t :: ts.takeWhile fun t => decide (t.id ≠ cursorId)).filter
            (fun t => decide (t.kind = SyntaxKind.Identifier)) =
            (ts.takeWhile fun t => decide (t.id ≠ cursorId)).filter
              (fun t => decide (t.kind = SyntaxKind.Identifier)) := by
          simp [List.filter_cons, hid]
        rw [hfl]
        have hrel : (if relevantTok t then decide (t.kind = SyntaxKind.Dot) else hd)
            = (hd || decide (t.kind = SyntaxKind.Dot)) := by
          by_cases hdot : t.kind = SyntaxKind.Dot
          · simp [relevantTok, hdot]
          · simp [relevantTok, hid, hdot]
        rw [hrel]
        simp only [chain_walk, if_neg hcur, if_pos hid]
        exact ih e (hd || decide (t.kind = SyntaxKind.Dot))

/-- Resolving the normalized texts of a token list is resolving the
token list. -/
theorem resolveStrings_map (l : List Token) : ∀ e : LookupResult,
    resolveStrings e (l.map fun t => normalize_identifier t.text) =
      resolveChainTokens e l := by
  induction l with
  | nil => intro e; rfl
  | cons t l ih =>
    intro e
    simp only [List.map_cons, resolveStrings, resolveChainTokens]
    cases hl : lookupIn e (normalize_identifier t.text) with
    | none => rfl
    | some e2 => exact ih e2

/-- The kind-level last-dot test agrees with the token-level one. -/
theorem kindsLast_eq (l : List Token) :
    (match (l.map Token.kind).getLast? with
     | some SyntaxKind.Dot => true
     | _ => false) =
    (match l.getLast? with
     | some t => decide (t.kind = SyntaxKind.Dot)
     | none => false) := by
  induction l with
  | nil => rfl
  | cons a l ih =>
    cases l with
    | nil =>
      obtain ⟨k, tx, st, i, sf⟩ := a
      cases k <;> rfl
    | cons b l2 =>
      simp only [List.map_cons, List.getLast?_cons_cons]
      exact ih

/-- The trailing-dot condition of the claim equals the dot flag computed
by the walk: the state of the consumed prefix, or-ed with the dot-kind
of the cursor token. -/
theorem endsWithDot_eq (pre : List Token) (cdot : Bool) :
    endsWithDot pre cdot = (trailingDotState false pre || cdot) := by
  unfold endsWithDot trailingDotState
  cases cdot with
  | true =>
    rw [if_pos rfl, List.getLast?_concat]
    simp
  | false =>
    rw [if_neg (by simp), List.append_nil, Bool.or_false]
    exact kindsLast_eq _

/-- The qualified-chain closure of completion_at computes exactly the
claim-side chain specification. -/
theorem qec_eq_chainSpec (cursorId : Nat) (tokens : List Token)
    (scope : ScopeEntries) :
    qualified_expression_completion cursorId tokens scope =
      chainSpecResult cursorId tokens scope := by
  unfold qualified_expression_completion chainSpecResult
  generalize tokens.dropWhile (fun t =>
    decide (t.kind ≠ SyntaxKind.Identifier) && decide (t.id ≠ cursorId)) = it
  cases it with
  | nil => rfl
  | cons first rest =>
    dsimp only
    by_cases hf : first.id = cursorId
    · rw [if_pos hf, if_pos hf]
    · rw [if_neg hf, if_neg hf]
      unfold resolveSegments
      dsimp only
      cases hsl : scopeLookup scope (normalize_identifier first.text) with
      | none => rfl
      | some e0 =>
        dsimp only
        rw [chain_walk_spec, resolveStrings_map]
        cases hrc : resolveChainTokens e0
            ((rest.takeWhile fun t => decide (t.id ≠ cursorId)).filter
              fun t => decide (t.kind = SyntaxKind.Identifier)) with
        | none => rfl
        | some obj =>
          dsimp only
          rw [endsWithDot_eq]

/-- C1: for a completion request on a qualified name in expression
position, the engine resolves the identifier tokens in order, looking up
each normalized segment on the object produced by the previous one,
starting from the global lookup object and stopping at the cursor token;
if the first examined token is the cursor (or none is examined) the
result is the plain expression enumeration, and otherwise the members of
the final resolved object are enumerated exactly when the consumed token
sequence ends with a trailing dot (the cursor token contributing its own
dot-kind, which the walk reads before stopping), no candidates being
produced for that path otherwise.  All of this is expressed by
chainSpecResult, which the engine equals. -/
theorem c1_qualified_chain_resolution (env : Env) (view : CursorView) (off : Nat)
    (caps : Option CompletionClientCapabilities) (toks : List Token)
    (scope : ScopeEntries)
    (hnode : view.node =
      NodeView.qualifiedName (some SyntaxKind.Expression) toks (some scope))
    (hkind : view.token.kind ≠ SyntaxKind.StringLiteral) :
    completion_at env view off caps = chainSpecResult view.token.id toks scope := by
  have h : completion_at env view off caps =
      qualified_expression_completion view.token.id toks scope := by
    simp [completion_at, hkind, hnode]
  rw [h, qec_eq_chainSpec]

/-- C1 witness: the chain a.b. with the cursor on the trailing dot
resolves a then b and enumerates the members of b. -/
theorem c1_qualified_chain_resolution_witness :
    completion_at envMin viewChain 9 none = chainSpecResult 13 toksChain scopeChain
    ∧ chainSpecResult 13 toksChain scopeChain =
      some [{ label := "xx", detail := some "int",
              kind := some CompletionItemKind.PROPERTY },
            { label := "yy", detail := some "string",
              kind := some CompletionItemKind.PROPERTY }] := by
  constructor
  · exact c1_qualified_chain_resolution envMin viewChain 9 none toksChain scopeChain
      rfl (by decide)
  · decide

/-- One export step preserves the import invariant. -/
theorem export_step_inv (fb : Bool) (locs : List (String × Position)) (nip : Position)
    (f : String) (avail0 : List String) (st : List String × List CompletionItem)
    (ex : String × ExportTy) (h : ImportInv avail0 st) :
    ImportInv avail0 (export_step fb locs nip f st ex) := by
  obtain ⟨h1, h2, h3⟩ := h
  unfold export_step
  by_cases hmem : ex.1 ∈ st.1
  · rw [if_pos hmem]
    exact ⟨h1, h2, h3⟩
  · rw [if_neg hmem]
    cases hex : ex.2 with
    | otherTy => exact ⟨h1, h2, h3⟩
    | component ig =>
      cases ig with
      | true => exact ⟨h1, h2, h3⟩
      | false =>
        simp only [Bool.false_eq_true, if_false]
        refine ⟨?_, ?_, ?_⟩
        · intro n hn
          exact List.mem_cons_of_mem _ (h1 n hn)
        · rw [List.map_append, List.nodup_append]
          refine ⟨h2, List.nodup_singleton _, ?_⟩
          intro x hx hx2
          obtain ⟨i, hi, hix⟩ := List.mem_map.mp hx
          obtain ⟨n, hn1, hn2, _⟩ := h3 i hi
          have hxx : x = some ex.1 := List.mem_singleton.mp hx2
          rw [hxx] at hix
          rw [hn1] at hix
          have : n = ex.1 := by injection hix
          exact hmem (this ▸ hn2)
        · intro i hi
          rcases List.mem_append.mp hi with hi | hi
          · obtain ⟨n, hn1, hn2, hn3⟩ := h3 i hi
            exact ⟨n, hn1, List.mem_cons_of_mem _ hn2, hn3⟩
          · have : i = import_candidate fb locs nip f ex.1 := List.mem_singleton.mp hi
            subst this
            refine ⟨ex.1, rfl, List.mem_cons_self _ _, fun hc => hmem (h1 _ hc)⟩

/-- The export fold preserves the import invariant. -/
theorem exports_foldl_inv (fb : Bool) (locs : List (String × Position))
    (nip : Position) (f : String) (avail0 : List String)
    (l : List (String × ExportTy)) :
    ∀ st, ImportInv avail0 st →
      ImportInv avail0 (l.foldl (export_step fb locs nip f) st) := by
  induction l with
  | nil => intro st h; exact h
  | cons ex l ih =>
    intro st h
    exact ih _ (export_step_inv fb locs nip f avail0 st ex h)

/-- One file step preserves the import invariant. -/
theorem file_step_inv (env : Env) (uri : String) (fb : Bool)
    (locs : List (String × Position)) (nip : Position) (avail0 : List String)
    (file : String) (st : List String × List CompletionItem)
    (h : ImportInv avail0 st) :
    ImportInv avail0 (file_step env uri fb locs nip st file) := by
  unfold file_step
  cases env.getDocument file with
  | none => exact h
  | some doc =>
    dsimp only
    split
    · exact h
    · exact exports_foldl_inv fb locs nip _ avail0 doc.exports st h

/-- The file fold preserves the import invariant. -/
theorem files_foldl_inv (env : Env) (uri : String) (fb : Bool)
    (locs : List (String × Position)) (nip : Position) (avail0 : List String)
    (files : List String) :
    ∀ st, ImportInv avail0 st →
      ImportInv avail0 (files.foldl (file_step env uri fb locs nip) st) := by
  induction files with
  | nil => intro st h; exact h
  | cons file files ih =>
    intro st h
    exact ih _ (file_step_inv env uri fb locs nip avail0 file st h)

/-- C5: an import-synthesis pass never produces a candidate for a name
already in the set of types visible without import, and across all
scanned documents each importable name yields at most one candidate per
request (so a name made visible by accepting an import edit is in the
available set of the next request and is skipped by the first part). -/
theorem c5_import_idempotence (env : Env) (token : Token)
    (nextTokens : List Token) (avail : List String) (items : List CompletionItem)
    (h : add_components_to_import env token nextTokens avail = some items) :
    (∀ i ∈ items, ∃ n, i.filter_text = some n ∧ n ∉ avail)
    ∧ (items.map CompletionItem.filter_text).Nodup := by
  unfold add_components_to_import at h
  dsimp only at h
  cases hu : env.urlOfFile token.sourceFile.path with
  | none => rw [hu] at h; cases h
  | some uri =>
    rw [hu] at h
    dsimp only at h
    cases hd : env.getDocument token.sourceFile.path with
    | none => rw [hd] at h; cases h
    | some currentDocument =>
      rw [hd] at h
      dsimp only at h
      cases hn : currentDocument.node with
      | none => rw [hn] at h; cases h
      | some current_doc =>
        rw [hn] at h
        dsimp only at h
        injection h with h
        subst h
        have hinv := files_foldl_inv env uri (is_followed_by_brace nextTokens)
          (importLocations token.sourceFile current_doc.importSpecifiers)
          (new_import_position token.sourceFile current_doc) avail env.all_files
          (avail, []) ⟨fun n hn => hn, List.nodup_nil, fun i hi => absurd hi (List.not_mem_nil i)⟩
        obtain ⟨_, h2, h3⟩ := hinv
        constructor
        · intro i hi
          obtain ⟨n, hn1, _, hn3⟩ := h3 i hi
          exact ⟨n, hn1, hn3⟩
        · exact h2

/-- C5 witness: the concrete environment with one other document
exporting Foo (and a global, which is skipped) yields one candidate,
whose name was not in the available set. -/
theorem c5_import_idempotence_witness :
    (∀ i ∈ [import_candidate false [] { line := 0, character := 0 } "other.slint" "Foo"],
      ∃ n, i.filter_text = some n ∧ n ∉ ["Bar"])
    ∧ ([import_candidate false [] { line := 0, character := 0 } "other.slint" "Foo"].map
        CompletionItem.filter_text).Nodup :=
  c5_import_idempotence envImp (mkTok SyntaxKind.Identifier "R" 3 0) [] ["Bar"]
    [import_candidate false [] { line := 0, character := 0 } "other.slint" "Foo"]
    (by decide)

/-- A list without run-breaking whitespace is its own attached run. -/
theorem attachedRun_no_bad (l : List DocChild) (h : l.any isBadWs = false) :
    attachedRun l = l := by
  cases l with
  | nil => rfl
  | cons c rest =>
    rw [List.any_cons] at h
    have h1 : isBadWs c = false := by
      cases hbc : isBadWs c
      · rfl
      · rw [hbc] at h; simp at h
    have h2 : rest.any isBadWs = false := by
      cases hbr : rest.any isBadWs
      · rfl
      · rw [hbr] at h; simp at h
    unfold attachedRun
    rw [h2]
    simp [h1]

/-- The cons equation of attachedRun. -/
theorem attachedRun_cons (c : DocChild) (rest : List DocChild) :
    attachedRun (c :: rest) =
      if rest.any isBadWs then attachedRun rest
      else if isBadWs c then rest else c :: rest := rfl

/-- The cons equation of the import scan. -/
theorem importScanOffset_cons (c : DocChild) (rest : List DocChild)
    (acc : Option Nat) :
    importScanOffset (c :: rest) acc =
      if c.kind = SyntaxKind.Comment then
        importScanOffset rest (if acc.isNone then some c.start else acc)
      else if c.kind = SyntaxKind.Whitespace then
        importScanOffset rest (if c.text ≠ "\n" then none else acc)
      else if acc.isNone then some c.start else acc := rfl

/-- The import scan with an arbitrary incoming state computes scanSpec. -/
theorem importScanOffset_eq (l : List DocChild) : ∀ acc : Option Nat,
    importScanOffset l acc = scanSpec l acc := by
  induction l with
  | nil =>
    intro acc
    cases acc <;> rfl
  | cons c rest ih =>
    intro acc
    rw [importScanOffset_cons]
    by_cases hC : c.kind = SyntaxKind.Comment
    · have hP : isCommentOrWs c = true := by simp [isCommentOrWs, hC]
      have hB : isBadWs c = false := by simp [isBadWs, hC]
      rw [if_pos hC, ih]
      unfold scanSpec
      rw [List.takeWhile_cons, List.dropWhile_cons]
      rw [hP]
      simp only [if_true, List.any_cons, hB, Bool.false_or]
      rw [attachedRun_cons]
      by_cases hb : (rest.takeWhile isCommentOrWs).any isBadWs = true
      · rw [hb]
        simp
      · rw [Bool.not_eq_true] at hb
        rw [hb]
        simp only [Bool.false_eq_true, if_false, hB]
        have hfc : (c :: rest.takeWhile isCommentOrWs).find?
            (fun x => decide (x.kind = SyntaxKind.Comment)) = some c :=
          List.find?_cons_of_pos _ (by simp [hC])
        rw [hfc]
        cases acc <;> rfl
    · rw [if_neg hC]
      by_cases hW : c.kind = SyntaxKind.Whitespace
      · have hP : isCommentOrWs c = true := by simp [isCommentOrWs, hW]
        have hNC : (c :: rest.takeWhile isCommentOrWs).find?
            (fun x => decide (x.kind = SyntaxKind.Comment)) =
            (rest.takeWhile isCommentOrWs).find?
              (fun x => decide (x.kind = SyntaxKind.Comment)) :=
          List.find?_cons_of_neg _ (by simp [hC])
        rw [if_pos hW]
        by_cases htext : c.text = "\n"
        · have hB : isBadWs c = false := by simp [isBadWs, htext]
          rw [if_neg (by simp [htext] : ¬ c.text ≠ "\n"), ih]
          unfold scanSpec
          rw [List.takeWhile_cons, List.dropWhile_cons]
          rw [hP]
          simp only [if_true, List.any_cons, hB, Bool.false_or]
          rw [attachedRun_cons]
          by_cases hb : (rest.takeWhile isCommentOrWs).any isBadWs = true
          · rw [hb]
            simp only [if_true]
          · rw [Bool.not_eq_true] at hb
            rw [hb]
            simp only [Bool.false_eq_true, if_false, hB]
            rw [attachedRun_no_bad _ hb, hNC]
        · have hB : isBadWs c = true := by simp [isBadWs, hW, htext]
          rw [if_pos (by simp [htext] : c.text ≠ "\n"), ih]
          unfold scanSpec
          rw [List.takeWhile_cons, List.dropWhile_cons]
          rw [hP]
          simp only [if_true, List.any_cons, hB, Bool.true_or]
          rw [attachedRun_cons]
          by_cases hb : (rest.takeWhile isCommentOrWs).any isBadWs = true
          · rw [hb]
            simp only [if_true]
          · rw [Bool.not_eq_true] at hb
            rw [hb]
            simp only [Bool.false_eq_true, if_false, hB, if_true]
            rw [attachedRun_no_bad _ hb]
      · have hP : isCommentOrWs c = false := by simp [isCommentOrWs, hC, hW]
        rw [if_neg hW]
        unfold scanSpec
        rw [List.takeWhile_cons, List.dropWhile_cons]
        rw [hP]
        simp only [Bool.false_eq_true, if_false, List.takeWhile_nil, List.any_nil,
          attachedRun, List.find?_nil, Option.map_none', List.head?_cons]
        cases acc <;> rfl

/-- The import scan started with no state computes the claimed
insertion offset. -/
theorem importScanOffset_spec (l : List DocChild) :
    importScanOffset l none = specInsertOffset l := by
  rw [importScanOffset_eq]
  unfold scanSpec specInsertOffset
  by_cases hb : (l.takeWhile isCommentOrWs).any isBadWs = true <;>
    cases hfc : (attachedRun (l.takeWhile isCommentOrWs)).find?
        (fun c => decide (c.kind = SyntaxKind.Comment)) <;>
      simp [hb, hfc]

/-- The fold computing the variable last keeps the end offset of the
last import. -/
theorem lastImportEnd_append (l : List ImportSpecView) (imp : ImportSpecView) :
    lastImportEnd (l ++ [imp]) = imp.endOffset := by
  unfold lastImportEnd
  rw [List.foldl_append]
  rfl

/-- C6: a synthesized import statement is inserted at line one past the
end of the last existing import when the file has imports (their end
offsets being positive in any parsed file), and otherwise at the start
of the unbroken single-newline-separated comment run attached to the
first substantive token, a blank line resetting the skip alignment, as
described by specInsertOffset. -/
theorem c6_import_insertion_position (sf : SourceFileView) (doc : DocNodeView) :
    (∀ pre imp, doc.importSpecifiers = pre ++ [imp] → imp.endOffset ≠ 0 →
      new_import_position sf doc =
        { line := (sf.mapPosition imp.endOffset).line + 1, character := 0 })
    ∧ (doc.importSpecifiers = [] →
      new_import_position sf doc =
        sf.mapPosition ((specInsertOffset doc.childrenWithTokens).getD 0)) := by
  constructor
  · intro pre imp hsplit hpos
    unfold new_import_position
    rw [hsplit, lastImportEnd_append]
    rw [if_neg hpos]
  · intro hnil
    unfold new_import_position
    rw [hnil]
    have h0 : lastImportEnd [] = 0 := rfl
    rw [h0, if_pos rfl, importScanOffset_spec]

/-- C6 witness: with one import ending at offset 42 the insertion point
is line 43; with no imports and a license header separated by a blank
line from the doc comments, the insertion point is the start of the doc
comment run (offset 11). -/
theorem c6_import_insertion_position_witness :
    new_import_position sfW docNodeWithImport = { line := 43, character := 0 }
    ∧ new_import_position sfW docNodeComments = { line := 11, character := 0 } := by
  constructor
  · have h := (c6_import_insertion_position sfW docNodeWithImport).1 []
      { importIdentifierList := some [{ endOffset := 20 }],
        stringLiteral := some "\"other.slint\"",
        endOffset := 42 } (by decide) (by decide)
    rw [h]
    decide
  · have h := (c6_import_insertion_position sfW docNodeComments).2 (by decide)
    rw [h]
    decide

end SlintCompletion
